import Mathlib

/-!
Verification of the AIRMET/SIGMET advisory parser and its spatial-reference
resolver (`avwx/current/airsigmet.py` and `avwx/flight_path.py`).

Python strings are modelled as `List Char`, Python exceptions as `Except PErr`,
Python floats as `ℚ` (the reachable float literals are decimal strings, which
`ℚ` represents exactly).  External collaborators that are not part of the
sources (the station/navaid lookup tables, the geodesic distance and
destination-point routines of `geopy`, and the small static code tables of
`avwx.static`) are modelled as explicit parameters or as small tables marked
"Modelled from the spec".
-/

/-- A Python `str` is a list of characters. -/
abbrev PyStr := List Char

/-- Whitespace characters recognised by Python `str.split()` (ASCII part). -/
def pyIsWs (c : Char) : Bool :=
  c = ' ' || c = '\t' || c = '\n' || c = '\r' || c = '\x0b' || c = '\x0c'

/-- Word characters for the regex `\b` boundary (`[A-Za-z0-9_]`). -/
def isWordChar (c : Char) : Bool :=
  c.isAlphanum || c = '_'

/-- Numeric value of a digit character. -/
def charVal (c : Char) : ℕ := c.toNat - 48

/-- Value of a digit string, most significant first (as in Python `int`). -/
def digitsVal (l : PyStr) : ℕ :=
  l.foldl (fun a c => 10 * a + charVal c) 0

/-- Python `str.isdigit` (ASCII digits). -/
def isdigitStr (l : PyStr) : Bool :=
  !l.isEmpty && l.all (·.isDigit)

/-- Python `str.split()` : split on whitespace runs, dropping empty parts. -/
def splitWs : PyStr → List PyStr
  | [] => []
  | [c] => if pyIsWs c then [] else [[c]]
  | c :: d :: cs =>
    let r := splitWs (d :: cs)
    if pyIsWs c then r
    else if pyIsWs d then [c] :: r
    else (c :: r.headI) :: r.tail

/-- Python `" ".join(parts)`. -/
def joinSp : List PyStr → PyStr
  | [] => []
  | [w] => w
  | w :: ws => w ++ ' ' :: joinSp ws

/-- Python `str.split(sep)` for a one-character separator (keeps empties). -/
def splitOnChar (sep : Char) : PyStr → List PyStr
  | [] => [[]]
  | c :: cs =>
    match splitOnChar sep cs with
    | [] => [[]]
    | w :: ws => if c = sep then [] :: w :: ws else (c :: w) :: ws

/-- Split a string at the first dot, if any. -/
def splitDot : PyStr → PyStr × Option PyStr
  | [] => ([], none)
  | c :: cs =>
    if c = '.' then ([], some cs)
    else
      let p := splitDot cs
      (c :: p.1, p.2)

/-- Python `float(s)` for an unsigned decimal literal. -/
def parseUFloat (l : PyStr) : Option ℚ :=
  match splitDot l with
  | (a, none) =>
    if a ≠ [] ∧ a.all (·.isDigit) then some (digitsVal a) else none
  | (a, some b) =>
    if (a ≠ [] ∨ b ≠ []) ∧ a.all (·.isDigit) ∧ b.all (·.isDigit) then
      some ((digitsVal a : ℚ) + (digitsVal b : ℚ) / (10 : ℚ) ^ b.length)
    else none

/-- Python `float(s)` for the decimal literals reachable in this parser. -/
def parseFloat : PyStr → Option ℚ
  | [] => parseUFloat []
  | c :: rest =>
    if c = '-' then (parseUFloat rest).map (fun q => -q) else parseUFloat (c :: rest)

/-- Python `int(s)` for the integer literals reachable in this parser. -/
def pyInt : PyStr → Option ℤ
  | '-' :: rest => if isdigitStr rest then some (-(digitsVal rest : ℤ)) else none
  | '+' :: rest => if isdigitStr rest then some (digitsVal rest : ℤ) else none
  | l => if isdigitStr l then some (digitsVal l : ℤ) else none

/-- Strip the characters of `set` from both ends (Python `str.strip(chars)`). -/
def pyStripChars (set : List Char) (s : PyStr) : PyStr :=
  ((s.dropWhile (· ∈ set)).reverse.dropWhile (· ∈ set)).reverse

/-- Strip the characters of `set` from the right end (Python `str.rstrip`). -/
def pyRstripChars (set : List Char) (s : PyStr) : PyStr :=
  (s.reverse.dropWhile (· ∈ set)).reverse

/-- The substring of `s` of length `n` starting at `i`. -/
def subAt (s : PyStr) (i n : ℕ) : PyStr :=
  (s.drop i).take n

/-- Does the literal `pat` occur at position `i` of `s`? -/
def isSubAt (s : PyStr) (i : ℕ) (pat : PyStr) : Bool :=
  subAt s i pat.length == pat

/-- Python `str.find` : index of the first occurrence, `-1` if absent. -/
def pyFindSub (s pat : PyStr) : ℤ :=
  match (List.range (s.length + 1)).find? (fun i => isSubAt s i pat) with
  | some i => (i : ℤ)
  | none => -1

/-- Python `str.rfind` : index of the last occurrence, `-1` if absent. -/
def pyRfindSub (s pat : PyStr) : ℤ :=
  match ((List.range (s.length + 1)).filter (fun i => isSubAt s i pat)).getLast? with
  | some i => (i : ℤ)
  | none => -1

/-- Python `s[:i]`, with Python's negative-index and clamping semantics. -/
def pySliceTo (s : PyStr) (i : ℤ) : PyStr :=
  if i < 0 then s.take (s.length - i.natAbs) else s.take i.toNat

/-- Python `s[i:]`, with Python's negative-index and clamping semantics. -/
def pySliceFrom (s : PyStr) (i : ℤ) : PyStr :=
  if i < 0 then s.drop (s.length - i.natAbs) else s.drop i.toNat

/-- Python `list.index` / `str.index` over token lists (`none` = ValueError). -/
def pyIndexOf {α : Type} [DecidableEq α] : List α → α → Option ℕ
  | [], _ => none
  | a :: l, x => if a = x then some 0 else (pyIndexOf l x).map (· + 1)

/-- Python `list.pop(i)` for a valid index: the list without element `i`. -/
def pyRemoveAt {α : Type} (l : List α) (i : ℕ) : List α :=
  l.take i ++ l.drop (i + 1)

/-- Python `list.remove(x)` when `x` is present: drop the first occurrence. -/
def removeFirst {α : Type} [DecidableEq α] : List α → α → List α
  | [], _ => []
  | a :: l, x => if a = x then l else a :: removeFirst l x

/-- Loop of `pyReplaceAll`, with fuel bounded by the string length. -/
def replaceFuel (pat repl : PyStr) : ℕ → PyStr → PyStr
  | 0, s => s
  | _ + 1, [] => []
  | f + 1, c :: cs =>
    if isSubAt (c :: cs) 0 pat then repl ++ replaceFuel pat repl f ((c :: cs).drop pat.length)
    else c :: replaceFuel pat repl f cs

/-- Python `str.replace(pat, repl)` : all non-overlapping occurrences. -/
def pyReplaceAll (s pat repl : PyStr) : PyStr :=
  if pat = [] then s else replaceFuel pat repl s.length s

/-- Python `str.removesuffix`. -/
def dropSuffix (s pat : PyStr) : PyStr :=
  if pat ≠ [] ∧ isSubAt s (s.length - pat.length) pat ∧ pat.length ≤ s.length then
    s.take (s.length - pat.length)
  else s

/-- Python `str.removeprefix`. -/
def dropLit (s pat : PyStr) : PyStr :=
  if isSubAt s 0 pat then s.drop pat.length else s

/-- Python `str.startswith`-style check used by `strip("-")` preprocessing. -/
def pyStripDashes (s : PyStr) : PyStr :=
  pyStripChars ['-'] s

/-! ### Regex matchers

Hand-compiled versions of the three module-level patterns of `airsigmet.py`:

* `_COORD_PATTERN   = \b[NS]\d{4} [EW]\d{5}\b( -)?`
* `_NAVAID_PATTERN  = \b(\d{1,3}[NESW]{1,3} [A-z]{3}\b)|((-|(TO )|(FROM ))[A-z]{3}\b)`
* `_LATTERAL_PATTERN = \b([NS] OF [NS]\d{4})|([EW] OF [EW]\d{5})( AND)?\b`

Note that in the second and third patterns the leading `\b` (and the trailing
`( AND)?\b`) bind to the first (respectively last) alternative only, exactly
as Python parses the alternation. -/

/-- Does `s` have `n` ASCII digits starting at position `i`? -/
def digitsAt (s : PyStr) (i n : ℕ) : Bool :=
  (List.range n).all (fun k =>
    match s.get? (i + k) with
    | some c => c.isDigit
    | none => false)

/-- Does the character at `i` satisfy `p`? -/
def charAtIs (s : PyStr) (i : ℕ) (p : Char → Bool) : Bool :=
  match s.get? i with
  | some c => p c
  | none => false

/-- Does the literal `pat` occur at `i` (same as `isSubAt`, regex-local name)? -/
def litAt (s : PyStr) (i : ℕ) (pat : PyStr) : Bool :=
  isSubAt s i pat

/-- Is the character at `i` a word character (false past the end)? -/
def wordAt (s : PyStr) (i : ℕ) : Bool :=
  charAtIs s i isWordChar

/-- Regex word boundary `\b` before position `i`, given the next char is a word
character. -/
def boundL (s : PyStr) (i : ℕ) : Bool :=
  i = 0 || !wordAt s (i - 1)

/-- Match of `_COORD_PATTERN` at position `i`: returns the match length. -/
def matchCoordAt (s : PyStr) (i : ℕ) : Option ℕ :=
  if boundL s i ∧ charAtIs s i (fun c => c = 'N' || c = 'S') ∧ digitsAt s (i + 1) 4 ∧
      litAt s (i + 5) [' '] ∧ charAtIs s (i + 6) (fun c => c = 'E' || c = 'W') ∧
      digitsAt s (i + 7) 5 ∧ !wordAt s (i + 12) then
    if litAt s (i + 12) [' ', '-'] then some 14 else some 12
  else none

/-- Match of `_LATTERAL_PATTERN` at position `i`: returns the match length. -/
def matchLatAt (s : PyStr) (i : ℕ) : Option ℕ :=
  if boundL s i ∧ charAtIs s i (fun c => c = 'N' || c = 'S') ∧
      litAt s (i + 1) [' ', 'O', 'F', ' '] ∧
      charAtIs s (i + 5) (fun c => c = 'N' || c = 'S') ∧ digitsAt s (i + 6) 4 then
    some 10
  else if charAtIs s i (fun c => c = 'E' || c = 'W') ∧
      litAt s (i + 1) [' ', 'O', 'F', ' '] ∧
      charAtIs s (i + 5) (fun c => c = 'E' || c = 'W') ∧ digitsAt s (i + 6) 5 then
    if litAt s (i + 11) [' ', 'A', 'N', 'D'] ∧ !wordAt s (i + 15) then some 15
    else if !wordAt s (i + 11) then some 11
    else none
  else none

/-- Is the character at `i` in the regex class `[A-z]` (ASCII 65–122)? -/
def azAt (s : PyStr) (i : ℕ) : Bool :=
  charAtIs s i (fun c => 65 ≤ c.toNat && c.toNat ≤ 122)

/-- Are the `n` characters starting at `i` all in `[A-z]`? -/
def azRun (s : PyStr) (i n : ℕ) : Bool :=
  (List.range n).all (fun k => azAt s (i + k))

/-- Are the `n` characters starting at `i` all in `[NESW]`? -/
def cardsAt (s : PyStr) (i n : ℕ) : Bool :=
  (List.range n).all (fun k =>
    charAtIs s (i + k) (fun c => c = 'N' || c = 'E' || c = 'S' || c = 'W'))

/-- First alternative of `_NAVAID_PATTERN`, with the greedy/backtracking order
of `\d{1,3}[NESW]{1,3}`. -/
def matchNavVector (s : PyStr) (i : ℕ) : Option ℕ :=
  if boundL s i then
    [3, 2, 1].findSome? (fun nd =>
      if digitsAt s i nd then
        [3, 2, 1].findSome? (fun nc =>
          if cardsAt s (i + nd) nc ∧ litAt s (i + nd + nc) [' '] ∧
              azRun s (i + nd + nc + 1) 3 ∧ !wordAt s (i + nd + nc + 4) then
            some (nd + nc + 4)
          else none)
      else none)
  else none

/-- Second alternative of `_NAVAID_PATTERN`: `(-|(TO )|(FROM ))[A-z]{3}\b`. -/
def matchNavIdent (s : PyStr) (i : ℕ) : Option ℕ :=
  [['-'], ['T', 'O', ' '], ['F', 'R', 'O', 'M', ' ']].findSome? (fun pre =>
    if litAt s i pre ∧ azRun s (i + pre.length) 3 ∧ !wordAt s (i + pre.length + 3) then
      some (pre.length + 3)
    else none)

/-- Match of `_NAVAID_PATTERN` at position `i`: returns the match length. -/
def matchNavAt (s : PyStr) (i : ℕ) : Option ℕ :=
  match matchNavVector s i with
  | some n => some n
  | none => matchNavIdent s i

/-- One left-to-right scan of `re.finditer`: non-overlapping matches as
`(start, length)` pairs. -/
def scanAux (m : PyStr → ℕ → Option ℕ) (s : PyStr) : ℕ → ℕ → List (ℕ × ℕ)
  | 0, _ => []
  | fuel + 1, pos =>
    if pos > s.length then []
    else
      match m s pos with
      | some len => (pos, len) :: scanAux m s fuel (pos + max len 1)
      | none => scanAux m s fuel (pos + 1)

/-- `re.finditer(pattern, s)` as a list of `(start, length)` pairs. -/
def finditer (m : PyStr → ℕ → Option ℕ) (s : PyStr) : List (ℕ × ℕ) :=
  scanAux m s (s.length + 1) 0

/-! ### Data model and error taxonomy -/

/-- The Python exception kinds raised by the parser, by raise site.
`missingValidity` is the `ValueError` of `data.index("VALID")`, which the
design document names `MissingValidityMarker`; `badStation` is the
`BadStation` raised by the ident lookup; `ambiguousCoord` is the bare
`Exception` of `_best_coord`. -/
inductive PErr
  | indexError
  | keyError
  | valueError
  | missingValidity
  | badStation
  | ambiguousCoord
deriving DecidableEq

deriving instance DecidableEq for Except

/-- Lift an optional value into `Except`, tagging absence with error `e`. -/
def okOr {α : Type} (o : Option α) (e : PErr) : Except PErr α :=
  match o with
  | some a => Except.ok a
  | none => Except.error e

/-- Modelled from the spec: dates only anchor time-only timestamps, so a
calendar day is an opaque value. -/
abbrev PDate := ℕ

/-- Modelled from the spec: `avwx.structs.Timestamp` ("parsed wall-clock value
anchored to a target date"; `avwx.structs` is not among the sources).  The raw
substring is retained together with the anchoring date. -/
structure Timestamp where
  repr : PyStr
  dte : Option PDate
deriving DecidableEq

/-- Modelled from the spec: `avwx.parsing.core.make_timestamp` (not among the
sources).  Returns no timestamp for an absent or empty token and otherwise
retains the raw token and the target date. -/
def make_timestamp (v : Option PyStr) (_timeOnly : Bool) (target : Option PDate) :
    Option Timestamp :=
  match v with
  | none => none
  | some s => if s = [] then none else some ⟨s, target⟩

/-- Modelled from the spec: `avwx.structs.Number` ("a numeric value tagged with
unit and raw text"). -/
structure Number where
  repr : PyStr
  value : PyStr
deriving DecidableEq

/-- Modelled from the spec: `avwx.parsing.core.make_number` (not among the
sources).  Returns no number for an empty string and otherwise tags the
processed value with the raw text. -/
def make_number (value rep : PyStr) : Option Number :=
  if value = [] then none else some ⟨rep, value⟩

/-- `avwx.structs.Code`: a coded value plus its raw token. -/
structure Code where
  repr : PyStr
  value : PyStr
deriving DecidableEq

/-- `avwx.structs.Coord`: latitude, longitude and the raw substring. -/
structure Coord where
  lat : ℚ
  lon : ℚ
  repr : Option PyStr
deriving DecidableEq

/-- `Coord.pair` of the source: the `(lat, lon)` pair. -/
def Coord.pair (c : Coord) : ℚ × ℚ := (c.lat, c.lon)

/-- `avwx.structs.Movement`: raw text, direction token and speed. -/
structure Movement where
  repr : PyStr
  direction : Option PyStr
  speed : Option Number
deriving DecidableEq

/-- Modelled from the spec: the shared unit-state object (`avwx.structs.Units`
is not among the sources; renamed `UnitsState` here since Lean already has a
`Units`); only the wind-speed unit is mutated here. -/
structure UnitsState where
  wind_speed : PyStr
deriving DecidableEq

/-- Modelled from the spec: `IN_UNITS` initial unit state. -/
def IN_UNITS : UnitsState := ⟨"kt".toList⟩

/-- `avwx.structs.Bulletin`: bulletin code split into type, country, number. -/
structure Bulletin where
  repr : PyStr
  type : Code
  country : PyStr
  number : ℤ
deriving DecidableEq

/-- `avwx.structs.AirSigObservation`. -/
structure AirSigObservation where
  type : Option Code
  start_time : Option Timestamp
  end_time : Option Timestamp
  position : Option Coord
  floor : Option Number
  ceiling : Option Number
  coords : List Coord
  bounds : List PyStr
  movement : Option Movement
  intensity : Option Code
  other : List PyStr
deriving DecidableEq

/-- `avwx.structs.AirSigmetData`. -/
structure AirSigmetData where
  raw : PyStr
  sanitized : PyStr
  station : Option PyStr
  time : Option Timestamp
  remarks : Option PyStr
  bulletin : Bulletin
  issuer : PyStr
  correction : Option PyStr
  area : PyStr
  type : PyStr
  start_time : Option Timestamp
  end_time : Option Timestamp
  body : PyStr
  region : PyStr
  observation : Option AirSigObservation
  forecast : Option AirSigObservation
deriving DecidableEq

/-- Modelled from the spec: `avwx.static.airsigmet.BULLETIN_TYPES`, the fixed
2-letter bulletin type table ("2-letter type looked up in a fixed type table";
`avwx.static` is not among the sources). -/
def BULLETIN_TYPES : List (PyStr × PyStr) :=
  [("WS".toList, "sigmet".toList),
   ("WA".toList, "airmet".toList),
   ("WV".toList, "volcanic ash advisory".toList),
   ("WC".toList, "tropical cyclone advisory".toList)]

/-- Modelled from the spec: `avwx.static.airsigmet.INTENSITY`, the fixed
intensity/trend code table ("e.g. weakening, intensifying"). -/
def INTENSITY : List (PyStr × PyStr) :=
  [("INTSF".toList, "Intensifying".toList),
   ("WKN".toList, "Weakening".toList),
   ("NC".toList, "No change".toList)]

/-- Modelled from the spec: `avwx.static.airsigmet.WEATHER_TYPES`, the fixed
hazard-code table matched by substring in a significant order. -/
def WEATHER_TYPES : List (PyStr × PyStr) :=
  [("OBSC TS".toList, "Obscured thunderstorm".toList),
   ("SEV TURB".toList, "Severe turbulence".toList),
   ("SEV ICE".toList, "Severe icing".toList),
   ("VA CLD".toList, "Volcanic ash cloud".toList)]

/-- Modelled from the spec: `avwx.static.core.CARDINAL_DEGREES`, the 16-point
compass table mapping cardinal suffixes to bearings in degrees (the spec fixes
SSW = 202.5). -/
def CARDINAL_DEGREES : List (PyStr × ℚ) :=
  [("N".toList, 0), ("NNE".toList, 45/2), ("NE".toList, 45), ("ENE".toList, 135/2),
   ("E".toList, 90), ("ESE".toList, 225/2), ("SE".toList, 135), ("SSE".toList, 315/2),
   ("S".toList, 180), ("SSW".toList, 405/2), ("SW".toList, 225), ("WSW".toList, 495/2),
   ("W".toList, 270), ("WNW".toList, 585/2), ("NW".toList, 315), ("NNW".toList, 675/2)]

/-- Dictionary lookup over an association-list table. -/
def lookupT {β : Type} (t : List (PyStr × β)) (k : PyStr) : Option β :=
  (t.find? (fun p => p.1 == k)).map (·.2)

/-- Modelled from the spec: the external ident-to-coordinate lookup (station
table first, then navaid table, then IATA table).  `avwx.station` and the
navaid data file are not among the sources, so the three tables are
parameters. -/
structure IdentLookup where
  icao : PyStr → Option (ℚ × ℚ)
  navaids : PyStr → Option (List (ℚ × ℚ))
  iata : PyStr → Option (ℚ × ℚ)

/-- Modelled from the spec: the geodesy routines of `geopy` (not among the
sources): great-circle distance in nautical miles between two `(lat, lon)`
pairs, and the destination point at a nautical-mile distance and a bearing in
degrees from a `(lat, lon)` pair. -/
structure GeoOracle where
  dist : ℚ × ℚ → ℚ × ℚ → ℚ
  dest : ℚ → ℚ × ℚ → ℚ → ℚ × ℚ

/-- The external environment of the parser: ident lookup plus geodesy. -/
structure Env where
  lookup : IdentLookup
  geo : GeoOracle

/-! ### `avwx/flight_path.py` -/

/-- `QCoord = Union[Coord, list[Coord]]` of `flight_path.py`. -/
inductive QCoord
  | one : Coord → QCoord
  | many : List Coord → QCoord
deriving DecidableEq

/-- The candidate list a `QCoord` denotes when Python iterates it as the
second argument of `_closest` (a single `Coord` would raise there; it is
unreachable from `to_coordinates`). -/
def qList : QCoord → List Coord
  | .one c => [c]
  | .many l => l

/-- `flight_path._distance`: great-circle distance between two coordinates,
through the distance parameter. -/
def _distance (d : ℚ × ℚ → ℚ × ℚ → ℚ) (near far : Coord) : ℚ :=
  d near.pair far.pair

/-- `distances.sort(); distances[0][1]` on `[(key c, c) for c in l]`: the
element with the least key, earliest first on ties (Python's sort is stable). -/
def argminFirst (key : Coord → ℚ) : List Coord → Option Coord
  | [] => none
  | c :: cs => some (cs.foldl (fun best x => if key x < key best then x else best) c)

/-- `flight_path._closest` for a single leading coordinate. -/
def closestSingle (d : ℚ × ℚ → ℚ × ℚ → ℚ) (c : Coord) (coords : List Coord) :
    Except PErr Coord :=
  okOr (argminFirst (fun x => _distance d c x) coords) .indexError

/-- `flight_path._closest` (both overloads of the `QCoord` union). -/
def _closest (d : ℚ × ℚ → ℚ × ℚ → ℚ) : QCoord → List Coord → Except PErr Coord
  | .one c, coords => closestSingle d c coords
  | .many cands, coords => do
    let pairs ← cands.mapM (fun c => do
      let r ← closestSingle d c coords
      pure (_distance d c r, c))
    match pairs with
    | [] => .error .indexError
    | p :: ps =>
      .ok (ps.foldl (fun best x => if x.1 < best.1 then x else best) p).2

/-- `flight_path._best_coord`: choose the best coordinate from the
surrounding resolved context. -/
def _best_coord (d : ℚ × ℚ → ℚ × ℚ → ℚ) (previous : Option QCoord) (current : QCoord)
    (up_next : Option Coord) : Except PErr Coord :=
  match previous, up_next with
  | none, none =>
    match current with
    | .many _ => .error .ambiguousCoord
    | .one c => .ok c
  | _, some nc => _closest d (.one nc) (qList current)
  | some (.many l), none => _closest d current l
  | some (.one pc), none => _closest d (.one pc) (qList current)

/-- `flight_path.to_coordinates`: resolve idents in a flight path to
coordinates, preferring Coord > ICAO > Navaid > IATA, disambiguating shared
idents by neighbor context. -/
def to_coordinates (L : IdentLookup) (d : ℚ × ℚ → ℚ × ℚ → ℚ) :
    List (Coord ⊕ PyStr) → Option QCoord → Except PErr (List Coord)
  | [], _ => .ok []
  | v :: rest, last =>
    match v with
    | .inl c => do
      let tail ← to_coordinates L d rest (some (.one c))
      pure (c :: tail)
    | .inr s =>
      match L.icao s with
      | some p => do
        let c : Coord := ⟨p.1, p.2, none⟩
        let tail ← to_coordinates L d rest (some (.one c))
        pure (c :: tail)
      | none =>
        match L.navaids s with
        | some ps =>
          let coords := ps.map (fun p => (⟨p.1, p.2, none⟩ : Coord))
          if coords.length = 1 then do
            let c ← okOr coords.head? .indexError
            let tail ← to_coordinates L d rest (some (.one c))
            pure (c :: tail)
          else do
            let new_coords ← to_coordinates L d rest (some (.many coords))
            let c ← _best_coord d last (.many coords) new_coords.head?
            pure (c :: new_coords)
        | none =>
          match L.iata s with
          | some p => do
            let c : Coord := ⟨p.1, p.2, none⟩
            let tail ← to_coordinates L d rest (some (.one c))
            pure (c :: tail)
          | none => .error .badStation

/-! ### `avwx/current/airsigmet.py` -/

/-- `_FLAGS` replacement and split of `_parse_prep`. -/
def _parse_prep (report : PyStr) : List PyStr :=
  let report := pyRstripChars ['.'] report
  let report := pyReplaceAll report "...".toList " <elip> ".toList
  let report := pyReplaceAll report "..".toList " <elip> ".toList
  let report := pyReplaceAll report ". ".toList " <break> ".toList
  let report := pyReplaceAll report "/VIS ".toList " <vis> VIS ".toList
  splitWs report

/-- `_clean_flags`: drop the internal marker tokens. -/
def _clean_flags (data : List PyStr) : List PyStr :=
  data.filter (fun t => t.head? ≠ some '<')

/-- `_bulletin`: split the bulletin code into type, country and number. -/
def _bulletin (value : PyStr) : Except PErr Bulletin :=
  let type_key := value.take 2
  match lookupT BULLETIN_TYPES type_key with
  | none => .error .keyError
  | some tv =>
    match pyInt (value.drop 4) with
    | none => .error .valueError
    | some n => .ok ⟨value, ⟨type_key, tv⟩, subAt value 2 2, n⟩

/-- `_header`: bulletin, issuer, time and optional 3-character correction. -/
def _header (data : List PyStr) :
    Except PErr (List PyStr × Bulletin × PyStr × PyStr × Option PyStr) :=
  match data.get? 0 with
  | none => .error .indexError
  | some t0 =>
    match _bulletin t0 with
    | .error e => .error e
    | .ok bulletin =>
      match data.get? 3 with
      | none => .error .indexError
      | some t3 =>
        let ce : Option PyStr × ℕ := if t3.length = 3 then (some t3, 4) else (none, 3)
        match data.get? 1, data.get? 2 with
        | some t1, some t2 => .ok (data.drop ce.2, bulletin, t1, t2, ce.1)
        | _, _ => .error .indexError

/-- Trailing station consumption of `_spacetime` (`data[0][-1] == "-"`). -/
def _stationCheck (data : List PyStr) : Except PErr (List PyStr × Option PyStr) :=
  match data.get? 0 with
  | none => .error .indexError
  | some t0 =>
    match t0.getLast? with
    | none => .error .indexError
    | some c => if c = '-' then .ok (data.drop 1, some t0) else .ok (data, none)

/-- The `data.pop(0).split(target)` step of `_spacetime`: split the popped
token on `-` (or `/` when it has no `-`); any part count other than two is
the unpacking ValueError. -/
def _splitTimes (t0 : PyStr) : Except PErr (PyStr × PyStr) :=
  match splitOnChar (if '-' ∈ t0 then '-' else '/') t0 with
  | [x, y] => .ok (x, y)
  | _ => .error .valueError

/-- Validity-window part of `_spacetime`, after the `VALID` marker: either
`UNTIL <end>` or a single token split on `-` (or `/`). -/
def _spacetimeRest (data : List PyStr) :
    Except PErr (List PyStr × Option PyStr × PyStr × Option PyStr) :=
  match data.get? 0 with
  | none => .error .indexError
  | some t0 =>
    if t0 = "UNTIL".toList then
      match data.get? 1 with
      | none => .error .indexError
      | some e =>
        match _stationCheck (data.drop 2) with
        | .error er => .error er
        | .ok (d, st) => .ok (d, none, e, st)
    else
      match _splitTimes t0 with
      | .error er => .error er
      | .ok (x, y) =>
        match _stationCheck (data.drop 1) with
        | .error er => .error er
        | .ok (d, st) => .ok (d, some x, y, st)

/-- `_spacetime`: area, advisory-type label, validity window and origin
station. -/
def _spacetime (data0 : List PyStr) :
    Except PErr (List PyStr × PyStr × PyStr × Option PyStr × PyStr × Option PyStr) :=
  match data0 with
  | [] => .error .indexError
  | area0 :: data =>
    match data.get? 0 with
    | none => .error .indexError
    | some t0 =>
      let step : Except PErr (List PyStr × PyStr) :=
        if t0 = "WA".toList then
          match data.get? 1 with
          | none => .error .indexError
          | some t1 =>
            if isdigitStr t1 then .ok (data.drop 2, area0.dropLast) else .ok (data, area0)
        else .ok (data, area0)
      match step with
      | .error e => .error e
      | .ok (data, area) =>
        match pyIndexOf data "VALID".toList with
        | none => .error .missingValidity
        | some vi =>
          let report_type := joinSp (data.take vi)
          match _spacetimeRest (data.drop (vi + 1)) with
          | .error e => .error e
          | .ok (d, st, et, station) => .ok (d, area, report_type, st, et, station)

/-- `_first_index`: index of the first listed target that occurs, `-1` when
none does (targets are tried in order, each by `list.index`). -/
def _first_index (data : List PyStr) (targets : List PyStr) : ℤ :=
  match targets.findSome? (fun t => pyIndexOf data t) with
  | some i => (i : ℤ)
  | none => -1

/-- `_region`: FIR/CTA/FROM region name, or a run of 2-letter state codes. -/
def _region (data : List PyStr) : List PyStr × PyStr :=
  let ne0 := _first_index data ["FIR".toList, "CTA".toList, "FROM".toList] + 1
  let name_end : ℕ :=
    if ne0 = 0 then (data.takeWhile (fun t => t.length = 2)).length else ne0.toNat
  (data.drop name_end, joinSp (data.take name_end))

/-- The `suppress(ValueError)` removals of `_time`: drop the first `FCST`,
`OUTLOOK` and `VALID` tokens when present. -/
def removeTimeMarkers (data : List PyStr) : List PyStr :=
  removeFirst (removeFirst (removeFirst data "FCST".toList) "OUTLOOK".toList) "VALID".toList

/-- `_time`: start and/or end time from the observation token buffer. -/
def _time (data : List PyStr) :
    Except PErr (List PyStr × Option Timestamp × Option Timestamp) :=
  let fi := _first_index data
    ["AT".toList, "FCST".toList, "UNTIL".toList, "VALID".toList, "OUTLOOK".toList]
  if fi = -1 then .ok (data, none, none)
  else
    let index := fi.toNat
    match data.get? index with
    | none => .error .indexError
    | some start_item =>
      let data := pyRemoveAt data index
      match data.get? index with
      | none => .error .indexError
      | some tcur =>
        if '-' ∈ tcur then
          let data := pyRemoveAt data index
          match splitOnChar '-' tcur with
          | [si, ei] =>
            .ok (removeTimeMarkers data, make_timestamp (some si) false none,
                 make_timestamp (some ei) false none)
          | _ => .error .valueError
        else if 4 ≤ tcur.length ∧ isdigitStr (tcur.take 4) then
          let data := pyRemoveAt data index
          let observed := make_timestamp (some tcur) true none
          let data :=
            if 0 < index ∧ data.get? (index - 1) = some ("OBS".toList) then
              pyRemoveAt data (index - 1)
            else data
          let data := removeTimeMarkers data
          match observed with
          | some obs =>
            if start_item = "UNTIL".toList ∨ start_item = "VALID".toList then
              .ok (data, none, some obs)
            else .ok (data, some obs, none)
          | none => .ok (data, none, none)
        else .ok (removeTimeMarkers data, none, none)

/-- `_coord_value`: decimal degrees from a coordinate literal. -/
def _coord_value (value : PyStr) : Option ℚ :=
  match value.get? 0 with
  | none => none
  | some c0 =>
    let isr : ℕ × Char × Char :=
      if c0 = 'N' ∨ c0 = 'S' then (3, 'N', 'S') else (4, 'E', 'W')
    let num := value.take isr.1 ++ '.' :: value.drop isr.1
    let num := (num.dropWhile (· = isr.2.1)).map (fun c => if c = isr.2.2 then '-' else c)
    parseFloat num

/-- `_position`: `PSN` marker followed by two coordinate literals. -/
def _position (data : List PyStr) : Except PErr (List PyStr × Option Coord) :=
  match pyIndexOf data "PSN".toList with
  | none => .ok (data, none)
  | some index =>
    let data := pyRemoveAt data index
    match data.get? index, data.get? (index + 1) with
    | some a, some b =>
      let raw := a ++ ' ' :: b
      match _coord_value a with
      | none => .error .valueError
      | some la =>
        let data := pyRemoveAt data index
        match _coord_value b with
        | none => .error .valueError
        | some lo =>
          let data := pyRemoveAt data index
          .ok (data, some ⟨la, lo, some raw⟩)
    | _, _ => .error .indexError

/-- Python `str.endswith`. -/
def pyEndsWith (s pat : PyStr) : Bool :=
  pat.length ≤ s.length && isSubAt s (s.length - pat.length) pat

/-- `_movement`: `STNR` or `MOV <dir> [<speed><unit>]`, updating the shared
wind-speed unit. -/
def _movement (data : List PyStr) (units : UnitsState) :
    Except PErr (List PyStr × UnitsState × Option Movement) :=
  if "STNR".toList ∈ data then
    let data := removeFirst data "STNR".toList
    .ok (data, units,
         some ⟨"STNR".toList, none, make_number "STNR".toList "STNR".toList⟩)
  else
    match pyIndexOf data "MOV".toList with
    | none => .ok (data, units, none)
    | some index =>
      match data.get? index with
      | none => .error .indexError
      | some raw0 =>
        let data := pyRemoveAt data index
        match data.get? index with
        | none => .error .indexError
        | some direction =>
          let data := pyRemoveAt data index
          let raw := raw0 ++ ' ' :: direction
          match data.get? index with
          | none => .error .indexError
          | some t =>
            let kt_unit := pyEndsWith t "KT".toList
            let kmh_unit := pyEndsWith t "KMH".toList
            if kt_unit || kmh_unit then
              let units : UnitsState := ⟨if kmh_unit then "kmh".toList else "kt".toList⟩
              let data := pyRemoveAt data index
              let raw := raw ++ ' ' :: t
              let speedVal := t.take (t.length - (if kmh_unit then 3 else 2))
              .ok (data, units, some ⟨raw, some direction, make_number speedVal speedVal⟩)
            else .ok (data, units, some ⟨raw, some direction, none⟩)

/-- `_pre_break`: report text up to the first `<break>` flag.  Note the
walrus-truthiness: a missing flag yields `find = -1`, which is truthy, so the
final character is sliced off. -/
def breakFlag : PyStr := " <break> ".toList

/-- `_pre_break` body (see the doc comment above). -/
def _pre_break (report : PyStr) : PyStr :=
  let break_index := pyFindSub report breakFlag
  if break_index ≠ 0 then pySliceTo report break_index else report

/-- `_info_from_match`: keep the first match position once one is found. -/
def _matchStart (mstart : ℕ) (start : ℤ) : ℤ :=
  if start = -1 then (mstart : ℤ) else start

/-- `_bounds_from_latterals`: record lateral clauses verbatim and blank them
out of the report. -/
def _bounds_from_latterals (report : PyStr) (start : ℤ) :
    PyStr × List PyStr × ℤ :=
  let base := _pre_break report
  (finditer matchLatAt base).foldl
    (fun acc m =>
      let group := subAt base m.1 m.2
      let st := _matchStart m.1 acc.2.2
      (pyReplaceAll acc.1 group [' '],
       acc.2.1 ++ [dropSuffix group " AND".toList], st))
    (report, [], start)

/-- `_coords_from_text`: convert literal coordinate pairs and blank them out
of the report. -/
def _coords_from_text (report : PyStr) (start : ℤ) :
    Except PErr (PyStr × List Coord × ℤ) :=
  let base := _pre_break report
  (finditer matchCoordAt base).foldlM
    (fun acc m =>
      let group := subAt base m.1 m.2
      let st := _matchStart m.1 acc.2.2
      match splitWs (pyStripChars [' ', '-'] group) with
      | [lat, lon] =>
        match _coord_value lat, _coord_value lon with
        | some la, some lo =>
          .ok (pyReplaceAll acc.1 group [' '],
               acc.2.1 ++ [(⟨la, lo, some group⟩ : Coord)], st)
        | _, _ => .error .valueError
      | _ => .error .valueError)
    (report, [], start)

/-- `_coords_from_navaids`: resolve bare idents and `<dist><cardinal> <ident>`
vectors into coordinates, blanking the matches out of the report. -/
def _coords_from_navaids (E : Env) (report : PyStr) (start : ℤ) :
    Except PErr (PyStr × List Coord × ℤ) :=
  let base := _pre_break report
  let step :=
    (finditer matchNavAt base).foldl
      (fun (acc : PyStr × List (PyStr × List PyStr) × ℤ) m =>
        let group := subAt base m.1 m.2
        let st := _matchStart m.1 acc.2.2
        let rep := pyReplaceAll acc.1 group [' ']
        let group := dropLit (dropLit (pyStripChars ['-'] group) "FROM ".toList) "TO ".toList
        (rep, acc.2.1 ++ [(group, splitWs group)], st))
      (report, [], start)
  let navs := step.2.1
  match navs.mapM (fun n =>
      okOr (if n.2.length = 2 then n.2.get? 1 else n.2.get? 0) .indexError) with
  | .error e => .error e
  | .ok idents =>
    match to_coordinates E.lookup E.geo.dist (idents.map .inr) none with
    | .error e => .error e
    | .ok locs =>
      match (List.range navs.length).mapM (fun i =>
          (match navs.get? i, locs.get? i with
          | some nav, some loc =>
            if nav.2.length = 2 then
              match nav.2.get? 0 with
              | none => .error .indexError
              | some vector =>
                let digits := vector.takeWhile (·.isDigit)
                if digits.length = vector.length then .error .indexError
                else
                  match pyInt digits with
                  | none => .error .valueError
                  | some distance =>
                    match lookupT CARDINAL_DEGREES (vector.drop digits.length) with
                    | none => .error .keyError
                    | some bearing =>
                      let p := E.geo.dest (distance : ℚ) loc.pair bearing
                      .ok (⟨p.1, p.2, some nav.1⟩ : Coord)
            else .ok ({loc with repr := some nav.1} : Coord)
          | _, _ => .error .indexError : Except PErr Coord)) with
      | .error e => .error e
      | .ok coords => .ok (step.1, coords, step.2.2)

/-- `_bounds`: lateral, coordinate and navaid passes followed by the
boundary-scaffolding trim. -/
def _bounds (E : Env) (data : List PyStr) :
    Except PErr (List PyStr × List Coord × List PyStr) :=
  let report := joinSp data
  let lat := _bounds_from_latterals report (-1)
  match _coords_from_text lat.1 lat.2.2 with
  | .error e => .error e
  | .ok (report, coords, start) =>
    match _coords_from_navaids E report start with
    | .error e => .error e
    | .ok (report, navs, start) =>
      let coords := coords ++ navs
      let from_index := pyFindSub report "FROM ".toList
      let start := if from_index ≠ -1 ∧ from_index < start then from_index else start
      let report := pySliceTo report start ++ pySliceFrom report (pyRfindSub report "  ".toList)
      .ok (splitWs report, coords, lat.2.1)

/-- `_is_altitude`: the altitude-literal recognition rule. -/
def _is_altitude (value : PyStr) : Bool :=
  if value.length < 5 then false
  else if value.take 4 == "SFC/".toList then true
  else if value.take 2 == "FL".toList && isdigitStr (subAt value 2 3) then true
  else
    match splitOnChar '/' value with
    | [] => false
    | first :: _ =>
      pySliceFrom first (-2) == "FT".toList &&
        isdigitStr (subAt first (first.length - 5) ((first.length - 2) - (first.length - 5)))

/-- `_make_altitude`: strip `FT`, optionally promote to flight level. -/
def _make_altitude (value : PyStr) (force_fl : Bool) : Option Number :=
  let v := if force_fl then "FL".toList ++ value else value
  make_number (dropSuffix v "FT".toList) value

/-- Loop of `_altitudes` over the token buffer (`pre` is the already-scanned
prefix `data[:i]`). -/
def altLoop (units : UnitsState) :
    List PyStr → List PyStr → Except PErr (List PyStr × UnitsState × Option Number × Option Number)
  | pre, [] => .ok (pre, units, none, none)
  | pre, item :: tail =>
    if item = "BTN".toList ∧ tail.length < 1 then
      .error .indexError
    else if item = "TOP".toList ∨ item = "TOPS".toList ∨ item = "BLW".toList then
      match tail.get? 0 with
      | none => .error .indexError
      | some t1 =>
        if t1 = "ABV".toList then
          match tail.get? 1 with
          | none => .error .indexError
          | some t2 =>
            let v := "ABV ".toList ++ t2
            .ok (pre ++ tail.drop 2, units, none, make_number v v)
        else if t1 = "TO".toList then
          match tail.get? 1 with
          | none => .error .indexError
          | some t2 => .ok (pre ++ tail.drop 2, units, none, _make_altitude t2 false)
        else .ok (pre ++ tail.drop 1, units, none, _make_altitude t1 false)
    else if _is_altitude item then
      if '/' ∈ item then
        match splitOnChar '/' item with
        | [floor_val, ceiling_val] =>
          let floor := _make_altitude floor_val false
          let ceiling :=
            if (floor_val = "SFC".toList ∨ floor_val.take 2 = "FL".toList) ∧
                ceiling_val.take 2 ≠ "FL".toList then
              _make_altitude ceiling_val true
            else _make_altitude ceiling_val false
          .ok (pre ++ tail, units, floor, ceiling)
        | _ => .error .valueError
      else .ok (pre ++ tail, units, none, _make_altitude item false)
    else altLoop units (pre ++ [item]) tail

/-- `_altitudes`: floor and ceiling extraction. -/
def _altitudes (data : List PyStr) (units : UnitsState) :
    Except PErr (List PyStr × UnitsState × Option Number × Option Number) :=
  altLoop units [] data

/-- `_weather_type`: first hazard-table key occurring as a substring. -/
def _weather_type (data : List PyStr) : List PyStr × Option Code :=
  let report := joinSp data
  match WEATHER_TYPES.find? (fun p => pyFindSub report p.1 != -1) with
  | none => (data, none)
  | some p => (splitWs (pyReplaceAll report p.1 []), some ⟨p.1, p.2⟩)

/-- `_intensity`: trailing intensity/trend code. -/
def _intensity (data : List PyStr) : List PyStr × Option Code :=
  match data.getLast? with
  | none => (data, none)
  | some last =>
    match lookupT INTENSITY last with
    | none => (data, none)
    | some v => (data.dropLast, some ⟨last, v⟩)

/-- `_sigmet_observation`: the fixed sub-extractor pipeline. -/
def _sigmet_observation (E : Env) (data : List PyStr) (units : UnitsState) :
    Except PErr (AirSigObservation × UnitsState) :=
  match _time data with
  | .error e => .error e
  | .ok (data, start_time, end_time) =>
    match _position data with
    | .error e => .error e
    | .ok (data, position) =>
      match _bounds E data with
      | .error e => .error e
      | .ok (data, coords, bounds) =>
        match _movement data units with
        | .error e => .error e
        | .ok (data, units, movement) =>
          let di := _intensity data
          match _altitudes di.1 units with
          | .error e => .error e
          | .ok (data, units, floor, ceiling) =>
            let dw := _weather_type data
            .ok (⟨dw.2, start_time, end_time, position, floor, ceiling, coords,
                  bounds, movement, di.2, _clean_flags dw.1⟩, units)

/-- `_observations`: split into current and forecast observations around the
first `FCST`/`OUTLOOK` marker. -/
def _observations (E : Env) (data : List PyStr) (units : UnitsState) :
    Except PErr (UnitsState × Option AirSigObservation × Option AirSigObservation) :=
  let fi := _first_index data ["FCST".toList, "OUTLOOK".toList]
  if fi = -1 then
    match _sigmet_observation E data units with
    | .error e => .error e
    | .ok (o, u) => .ok (u, some o, none)
  else if fi < 6 then
    match _sigmet_observation E data units with
    | .error e => .error e
    | .ok (f, u) => .ok (u, none, some f)
  else
    match _sigmet_observation E (data.take fi.toNat) units with
    | .error e => .error e
    | .ok (o, u) =>
      match _sigmet_observation E (data.drop fi.toNat) u with
      | .error e => .error e
      | .ok (f, u2) => .ok (u2, some o, some f)

/-- `sanitize`: collapse whitespace and strip `=`/space from the ends. -/
def sanitize (report : PyStr) : PyStr :=
  joinSp (splitWs (pyStripChars [' ', '='] report))

/-- The `AIRMET` trim step of `parse`. -/
def _trimAirmet (data : List PyStr) : Except PErr (List PyStr) :=
  match data.get? 0 with
  | none => .error .indexError
  | some t0 =>
    if t0 = "AIRMET".toList then
      match pyIndexOf data "<elip>".toList with
      | none => .error .valueError
      | some i => .ok (data.take i)
    else .ok data

/-- `parse`: the orchestrator assembling the full record. -/
def parse (E : Env) (report : PyStr) (issued : Option PDate) :
    Except PErr (AirSigmetData × UnitsState) :=
  let units := IN_UNITS
  let sanitized := sanitize report
  match _header (_parse_prep sanitized) with
  | .error e => .error e
  | .ok (data, bulletin, issuer, time, correction) =>
    match _spacetime data with
    | .error e => .error e
    | .ok (data, area, report_type, start_time, end_time, station) =>
      let body := pySliceTo sanitized (pyFindSub sanitized (joinSp (data.take 2)))
      match _trimAirmet data with
      | .error e => .error e
      | .ok data =>
        let dr := _region data
        match _observations E dr.1 units with
        | .error e => .error e
        | .ok (units2, observation, forecast) =>
          .ok (⟨report, sanitized, station, make_timestamp (some time) false issued,
                none, bulletin, issuer, correction, area, report_type,
                make_timestamp start_time false issued,
                make_timestamp end_time false issued, body, dr.2,
                observation, forecast⟩, units2)

/-! ### Concrete instances used by witnesses and counterexamples -/

/-- A trivial external environment: empty lookup tables and a degenerate
geodesy oracle (not consulted by the concrete inputs below). -/
def E0 : Env :=
  ⟨⟨fun _ => none, fun _ => none, fun _ => none⟩, ⟨fun _ _ => 0, fun _ p _ => p⟩⟩

/-- Taxicab distance on coordinate pairs, a concrete stand-in for the
great-circle distance parameter in witnesses. -/
def dTaxi : ℚ × ℚ → ℚ × ℚ → ℚ := fun p q => |p.1 - q.1| + |p.2 - q.2|

/-- Ambiguous-ident candidate A of the disambiguation scenario. -/
def cA : Coord := ⟨1, 1, none⟩

/-- Ambiguous-ident candidate B of the disambiguation scenario. -/
def cB : Coord := ⟨50, 50, none⟩

/-- Forward-neighbor coordinate, closer to `cA` than to `cB`. -/
def cFwd : Coord := ⟨2, 2, none⟩

/-- Token list with `OUTLOOK` at index 0 and `FCST` at index 10, separating
the two readings of the forecast-marker rule. -/
def dC7 : List PyStr :=
  (["OUTLOOK", "B1", "B2", "B3", "B4", "B5", "B6", "B7", "B8", "B9", "FCST", "B10"]).map
    String.toList

/-! ### Claim C1 : the `BTN <floor> AND <ceiling>` altitude form -/

/-- C1: the `BTN` branch guard of `_altitudes` reads `len(data) < i + 2` where
the intended guard is `len(data) >= i + 2` (the design document flags this
inversion).  Consequently, on `["BTN", "FL100", "AND", "FL200"]` — where the
claim requires floor `FL100`, ceiling `FL200` and all four tokens consumed —
the code never takes the `BTN` branch: it later parses `FL100` as a bare
ceiling and leaves `["BTN", "AND", "FL200"]` behind; and when `BTN` is the
final token the guard is true and the `data[i + 2]` access raises an
IndexError. -/
theorem altitudes_btn_bug :
    _altitudes ((["BTN", "FL100", "AND", "FL200"]).map String.toList) IN_UNITS =
      .ok ((["BTN", "AND", "FL200"]).map String.toList, IN_UNITS, none,
        some ⟨"FL100".toList, "FL100".toList⟩) ∧
    _altitudes ((["X", "BTN"]).map String.toList) IN_UNITS = .error .indexError := by
  constructor <;> decide

/-! ### Claim C10 : `_pre_break` truncation -/

/-- C10: when the report does not contain `" <break> "`, `find` returns `-1`,
which is truthy, so `_pre_break` returns the report with its final character
removed; the untruncated report is returned exactly when the flag occurs at
position 0; in particular a nonempty break-free report never passes through
unshortened. -/
theorem pre_break_spec :
    (∀ r : PyStr, pyFindSub r breakFlag = -1 → _pre_break r = r.dropLast) ∧
    (∀ r : PyStr, pyFindSub r breakFlag = 0 → _pre_break r = r) ∧
    (∀ r : PyStr, r ≠ [] → pyFindSub r breakFlag = -1 → _pre_break r ≠ r) := by
  have hslice : ∀ r : PyStr, pySliceTo r (-1) = r.dropLast := by
    intro r
    simp [pySliceTo, List.dropLast_eq_take]
  have h1 : ∀ r : PyStr, pyFindSub r breakFlag = -1 → _pre_break r = r.dropLast := by
    intro r h
    simp only [_pre_break, h]
    norm_num [hslice]
  refine ⟨h1, ?_, ?_⟩
  · intro r h
    simp only [_pre_break, h]
    norm_num
  · intro r hr h
    rw [h1 r h]
    intro heq
    have hlen : r.dropLast.length < r.length := by
      cases r with
      | nil => exact absurd rfl hr
      | cons a t => simp
    rw [heq] at hlen
    omega

/-- C10 witness: a concrete break-free report loses its final character. -/
theorem pre_break_spec_witness :
    pyFindSub ("ABC".toList) breakFlag = -1 ∧
      _pre_break ("ABC".toList) = ("ABC".toList).dropLast := by
  refine ⟨by decide, pre_break_spec.1 ("ABC".toList) (by decide)⟩

/-! ### Claim C2 : coordinate-literal conversion -/

/-- A digit character differs from any non-digit character. -/
theorem digit_ne {c x : Char} (hc : c.isDigit = true) (hx : x.isDigit = false) : ¬c = x := by
  intro h
  rw [h, hx] at hc
  exact Bool.noConfusion hc

/-- `digitsVal` on two digits. -/
theorem digitsVal_two (a b : Char) : digitsVal [a, b] = 10 * charVal a + charVal b := by
  simp [digitsVal, List.foldl]

/-- `digitsVal` on three digits. -/
theorem digitsVal_three (a b c : Char) :
    digitsVal [a, b, c] = 100 * charVal a + 10 * charVal b + charVal c := by
  simp [digitsVal, List.foldl]
  ring

/-- `parseUFloat` on a `dd.dd` digit shape. -/
theorem parseUFloat_two_two (a b c d : Char) (ha : a.isDigit) (hb : b.isDigit)
    (hc : c.isDigit) (hd : d.isDigit) :
    parseUFloat [a, b, '.', c, d] =
      some ((digitsVal [a, b] : ℚ) + (digitsVal [c, d] : ℚ) / 100) := by
  have ha' := digit_ne ha (show ('.' : Char).isDigit = false by decide)
  have hb' := digit_ne hb (show ('.' : Char).isDigit = false by decide)
  simp [parseUFloat, splitDot, ha', hb', ha, hb, hc, hd]
  norm_num

/-- `parseUFloat` on a `ddd.dd` digit shape. -/
theorem parseUFloat_three_two (a b c d e : Char) (ha : a.isDigit) (hb : b.isDigit)
    (hc : c.isDigit) (hd : d.isDigit) (he : e.isDigit) :
    parseUFloat [a, b, c, '.', d, e] =
      some ((digitsVal [a, b, c] : ℚ) + (digitsVal [d, e] : ℚ) / 100) := by
  have ha' := digit_ne ha (show ('.' : Char).isDigit = false by decide)
  have hb' := digit_ne hb (show ('.' : Char).isDigit = false by decide)
  have hc' := digit_ne hc (show ('.' : Char).isDigit = false by decide)
  simp [parseUFloat, splitDot, ha', hb', hc', ha, hb, hc, hd, he]
  norm_num

/-- C2 counterexample: the claim's example value is wrong.  `E01506` decodes
to `15.06` (first three digits are whole degrees), not approximately `1.506`:
the two differ by more than 13 degrees. -/
theorem coord_value_example_counterexample :
    _coord_value ("E01506".toList) = some (1506 / 100) ∧
      (13 : ℚ) < 1506 / 100 - 1506 / 1000 := by
  constructor
  · show _coord_value ('E' :: ['0', '1', '5', '0', '6']) = some (1506 / 100)
    simp [_coord_value, parseFloat, parseUFloat, splitDot, digitsVal, charVal, List.dropWhile]
    norm_num
  · norm_num

/-- C2 (amended): `_coord_value` maps `[NS]dddd` to `±dd.dd` (first two digits
whole degrees) and `[EW]ddddd` to `±ddd.dd` (first three digits whole
degrees), negative for S/W; so `N4409 E01506` decodes to `(44.09, 15.06)`,
not `(44.09, 1.506)`. -/
theorem coord_value_spec (a b c d e : Char) (ha : a.isDigit = true)
    (hb : b.isDigit = true) (hc : c.isDigit = true) (hd : d.isDigit = true)
    (he : e.isDigit = true) :
    _coord_value ('N' :: [a, b, c, d]) =
      some (((10 * charVal a + charVal b : ℕ) : ℚ) + ((10 * charVal c + charVal d : ℕ) : ℚ) / 100) ∧
    _coord_value ('S' :: [a, b, c, d]) =
      some (-(((10 * charVal a + charVal b : ℕ) : ℚ) + ((10 * charVal c + charVal d : ℕ) : ℚ) / 100)) ∧
    _coord_value ('E' :: [a, b, c, d, e]) =
      some (((100 * charVal a + 10 * charVal b + charVal c : ℕ) : ℚ) +
        ((10 * charVal d + charVal e : ℕ) : ℚ) / 100) ∧
    _coord_value ('W' :: [a, b, c, d, e]) =
      some (-(((100 * charVal a + 10 * charVal b + charVal c : ℕ) : ℚ) +
        ((10 * charVal d + charVal e : ℕ) : ℚ) / 100)) := by
  have hN : (('N' : Char).isDigit = false) := by decide
  have hS : (('S' : Char).isDigit = false) := by decide
  have hE : (('E' : Char).isDigit = false) := by decide
  have hW : (('W' : Char).isDigit = false) := by decide
  have hdash : (('-' : Char).isDigit = false) := by decide
  refine ⟨?_, ?_, ?_, ?_⟩
  · simp only [_coord_value]
    simp [digit_ne ha hN, digit_ne ha hS, digit_ne hb hS, digit_ne hc hS, digit_ne hd hS,
      parseFloat, digit_ne ha hdash,
      parseUFloat_two_two a b c d ha hb hc hd, digitsVal_two]
  · simp only [_coord_value]
    simp [digit_ne ha hN, digit_ne ha hS, digit_ne hb hS, digit_ne hc hS, digit_ne hd hS,
      parseFloat, parseUFloat_two_two a b c d ha hb hc hd, digitsVal_two]
  · simp only [_coord_value]
    simp [digit_ne ha hE, digit_ne ha hW, digit_ne hb hW, digit_ne hc hW, digit_ne hd hW,
      digit_ne he hW, parseFloat, digit_ne ha hdash,
      parseUFloat_three_two a b c d e ha hb hc hd he, digitsVal_three, digitsVal_two]
  · simp only [_coord_value]
    simp [digit_ne ha hW, digit_ne hb hW, digit_ne hc hW, digit_ne hd hW, digit_ne he hW,
      parseFloat, parseUFloat_three_two a b c d e ha hb hc hd he, digitsVal_three,
      digitsVal_two]

/-- C2 witness: the amended rule evaluated on the claim's literals. -/
theorem coord_value_spec_witness :
    _coord_value ('N' :: ['4', '4', '0', '9']) =
      some (((10 * charVal '4' + charVal '4' : ℕ) : ℚ) +
        ((10 * charVal '0' + charVal '9' : ℕ) : ℚ) / 100) ∧
    _coord_value ('E' :: ['0', '1', '5', '0', '6']) =
      some (((100 * charVal '0' + 10 * charVal '1' + charVal '5' : ℕ) : ℚ) +
        ((10 * charVal '0' + charVal '6' : ℕ) : ℚ) / 100) := by
  exact ⟨(coord_value_spec '4' '4' '0' '9' '6' (by decide) (by decide) (by decide)
      (by decide) (by decide)).1,
    (coord_value_spec '0' '1' '5' '0' '6' (by decide) (by decide) (by decide)
      (by decide) (by decide)).2.2.1⟩

/-! ### Claim C4 : header decoding -/

/-- C4 counterexample: on a 3-token header whose bulletin type is in the
table, the claim says decoding succeeds, but the unconditional `data[3]`
access fails with an IndexError. -/
theorem header_boundary_counterexample :
    _header ((["WSCN31", "RJTD", "020000"]).map String.toList) = .error .indexError ∧
    ((["WSCN31", "RJTD", "020000"]).map String.toList).length = 3 ∧
    (lookupT BULLETIN_TYPES (("WSCN31".toList).take 2)).isSome = true := by
  refine ⟨rfl, by decide, by decide⟩

/-- `_bulletin` succeeds exactly when the type lookup and the integer parse
of the tail succeed, and then returns the assembled bulletin. -/
theorem bulletin_ok_iff (t0 : PyStr) (b : Bulletin) :
    _bulletin t0 = .ok b ↔
      ∃ tv n, lookupT BULLETIN_TYPES (t0.take 2) = some tv ∧
        pyInt (t0.drop 4) = some n ∧ b = ⟨t0, ⟨t0.take 2, tv⟩, subAt t0 2 2, n⟩ := by
  cases hlk : lookupT BULLETIN_TYPES (t0.take 2) with
  | none => simp [_bulletin, hlk]
  | some tv =>
    cases hint : pyInt (t0.drop 4) with
    | none => simp [_bulletin, hlk, hint]
    | some n =>
      simp only [_bulletin, hlk, hint]
      constructor
      · intro h
        refine ⟨tv, n, rfl, rfl, ?_⟩
        injection h with h1
        exact h1.symm
      · rintro ⟨tv', n', htv, hn, hb⟩
        rw [hb, hlk] at *
        injection htv with h1
        injection hn with h2
        rw [h1, h2]

/-- C4 (amended): header decoding fails exactly when fewer than 4 tokens
remain (a 3-token list already fails on the unconditional `data[3]` access),
or the bulletin type (first two characters of token 0) is not in the table,
or the tail of token 0 after its first four characters is not an integer;
otherwise it succeeds and consumes token 3 as a correction flag if and only
if token 3 is exactly 3 characters long. -/
theorem header_spec :
    (∀ data : List PyStr,
      (∃ r, _header data = .ok r) ↔
        (4 ≤ data.length ∧ ∃ t0 tv n, data.get? 0 = some t0 ∧
          lookupT BULLETIN_TYPES (t0.take 2) = some tv ∧ pyInt (t0.drop 4) = some n)) ∧
    (∀ (data : List PyStr) t0, data.get? 0 = some t0 →
      lookupT BULLETIN_TYPES (t0.take 2) = none → _header data = .error .keyError) ∧
    (∀ t0 t1 t2 t3 rest tv n, lookupT BULLETIN_TYPES (t0.take 2) = some tv →
      pyInt (t0.drop 4) = some n →
      _header (t0 :: t1 :: t2 :: t3 :: rest) =
        if t3.length = 3 then
          .ok (rest, ⟨t0, ⟨t0.take 2, tv⟩, subAt t0 2 2, n⟩, t1, t2, some t3)
        else
          .ok (t3 :: rest, ⟨t0, ⟨t0.take 2, tv⟩, subAt t0 2 2, n⟩, t1, t2, none)) := by
  have hok : ∀ t0 t1 t2 t3 rest tv n, lookupT BULLETIN_TYPES (t0.take 2) = some tv →
      pyInt (t0.drop 4) = some n →
      _header (t0 :: t1 :: t2 :: t3 :: rest) =
        if t3.length = 3 then
          .ok (rest, ⟨t0, ⟨t0.take 2, tv⟩, subAt t0 2 2, n⟩, t1, t2, some t3)
        else
          .ok (t3 :: rest, ⟨t0, ⟨t0.take 2, tv⟩, subAt t0 2 2, n⟩, t1, t2, none) := by
    intro t0 t1 t2 t3 rest tv n hlk hint
    by_cases ht : t3.length = 3 <;>
      simp [_header, _bulletin, hlk, hint, ht]
  refine ⟨?_, ?_, hok⟩
  · intro data
    constructor
    · rintro ⟨r, hr⟩
      unfold _header at hr
      split at hr
      · exact absurd hr (by simp)
      · rename_i t0 h0
        split at hr
        · exact absurd hr (by simp)
        · rename_i b hb
          split at hr
          · exact absurd hr (by simp)
          · rename_i t3 h3
            obtain ⟨tv, n, hlk, hint, -⟩ := (bulletin_ok_iff t0 b).1 hb
            have hlen : 4 ≤ data.length := by
              by_contra hlt
              rw [List.get?_eq_none.mpr (by omega)] at h3
              exact Option.noConfusion h3
            exact ⟨hlen, t0, tv, n, h0, hlk, hint⟩
    · rintro ⟨hlen, t0, tv, n, h0, hlk, hint⟩
      cases data with
      | nil => simp at hlen
      | cons a d1 =>
        cases d1 with
        | nil => simp at hlen
        | cons t1 d2 =>
          cases d2 with
          | nil => simp at hlen
          | cons t2 d3 =>
            cases d3 with
            | nil => simp at hlen
            | cons t3 rest =>
              have ha : a = t0 := by simpa using h0
              subst ha
              rw [hok a t1 t2 t3 rest tv n hlk hint]
              by_cases ht : t3.length = 3
              · exact ⟨_, by rw [if_pos ht]⟩
              · exact ⟨_, by rw [if_neg ht]⟩
  · intro data t0 h0 hlk
    have hb : _bulletin t0 = .error .keyError := by simp [_bulletin, hlk]
    cases data with
    | nil => exact absurd h0 (by simp)
    | cons a rest =>
      have ha : a = t0 := by simpa using h0
      subst ha
      simp [_header, hb]

/-- C4 witness: a well-formed 4-token header decodes, with no correction
consumed since token 3 has 4 characters. -/
theorem header_spec_witness :
    _header ((["WSCN31", "RJTD", "020000", "KZAK"]).map String.toList) =
      .ok ([("KZAK".toList)],
        ⟨"WSCN31".toList, ⟨"WS".toList, "sigmet".toList⟩, "CN".toList, 31⟩,
        "RJTD".toList, "020000".toList, none) := by
  have h := header_spec.2.2 ("WSCN31".toList) ("RJTD".toList) ("020000".toList)
    ("KZAK".toList) [] ("sigmet".toList) 31 (by rfl) (by rfl)
  rw [if_neg (by decide)] at h
  exact h

/-! ### Claim C6 : region decoding -/

/-- `pyIndexOf` misses exactly the absent elements. -/
theorem pyIndexOf_eq_none {α : Type} [DecidableEq α] (l : List α) (x : α) :
    pyIndexOf l x = none ↔ x ∉ l := by
  induction l with
  | nil => simp [pyIndexOf]
  | cons a t ih =>
    by_cases hax : a = x
    · subst hax
      simp [pyIndexOf]
    · simp [pyIndexOf, hax, ih, Ne.symm hax]

/-- `pyIndexOf` finds the first occurrence. -/
theorem pyIndexOf_append_cons {α : Type} [DecidableEq α] (pre rest : List α) (x : α)
    (h : x ∉ pre) : pyIndexOf (pre ++ x :: rest) x = some pre.length := by
  induction pre with
  | nil => simp [pyIndexOf]
  | cons a t ih =>
    have hax : ¬a = x := fun hh => h (by simp [hh])
    have ht : x ∉ t := fun hh => h (by simp [hh])
    simp [pyIndexOf, hax, ih ht]

/-- Taking through the marker keeps the prefix and the marker. -/
theorem take_append_cons {α : Type} (pre rest : List α) (x : α) :
    (pre ++ x :: rest).take (pre.length + 1) = pre ++ [x] := by
  induction pre with
  | nil => simp
  | cons a t ih => simp [ih]

/-- Dropping through the marker leaves the tail. -/
theorem drop_append_cons {α : Type} (pre rest : List α) (x : α) :
    (pre ++ x :: rest).drop (pre.length + 1) = rest := by
  induction pre with
  | nil => simp
  | cons a t ih => simp [ih]

/-- C6 counterexample: with tokens `["TANGO", "FROM", "X"]` the claim calls
for region name `"TANGO"` (excluding `FROM`) and remainder `["FROM", "X"]`,
but `_region` includes the `FROM` marker in the name and drops it from the
remainder. -/
theorem region_from_counterexample :
    _region ((["TANGO", "FROM", "X"]).map String.toList) =
      ([("X".toList)], "TANGO FROM".toList) ∧
    _region ((["TANGO", "FROM", "X"]).map String.toList) ≠
      ((["FROM", "X"]).map String.toList, "TANGO".toList) := by
  exact ⟨rfl, by decide⟩

/-- C6 (amended): the region decoder looks for `FIR` anywhere first, then
`CTA`, then `FROM` (not the first occurrence of any of the three), and in all
three cases the marker itself is included in the region name; the returned
token list is the remainder after the marker. -/
theorem region_spec :
    (∀ pre rest : List PyStr, "FIR".toList ∉ pre →
      _region (pre ++ "FIR".toList :: rest) = (rest, joinSp (pre ++ [("FIR".toList)]))) ∧
    (∀ pre rest : List PyStr, "FIR".toList ∉ pre ++ "CTA".toList :: rest →
      "CTA".toList ∉ pre →
      _region (pre ++ "CTA".toList :: rest) = (rest, joinSp (pre ++ [("CTA".toList)]))) ∧
    (∀ pre rest : List PyStr, "FIR".toList ∉ pre ++ "FROM".toList :: rest →
      "CTA".toList ∉ pre ++ "FROM".toList :: rest → "FROM".toList ∉ pre →
      _region (pre ++ "FROM".toList :: rest) = (rest, joinSp (pre ++ [("FROM".toList)]))) := by
  have hlen : ∀ pre : List PyStr, (((pre.length : ℤ) + 1) = 0) = False := by
    intro pre
    simp
    omega
  have htn : ∀ pre : List PyStr, ((pre.length : ℤ) + 1).toNat = pre.length + 1 := by
    intro pre
    omega
  refine ⟨?_, ?_, ?_⟩
  · intro pre rest h
    simp only [_region, _first_index, List.findSome?,
      pyIndexOf_append_cons pre rest ("FIR".toList) h]
    simp only [hlen, htn, if_false]
    rw [take_append_cons, drop_append_cons]
  · intro pre rest hFIR hCTA
    simp only [_region, _first_index, List.findSome?,
      (pyIndexOf_eq_none _ _).mpr hFIR,
      pyIndexOf_append_cons pre rest ("CTA".toList) hCTA]
    simp only [hlen, htn, if_false]
    rw [take_append_cons, drop_append_cons]
  · intro pre rest hFIR hCTA hFROM
    simp only [_region, _first_index, List.findSome?,
      (pyIndexOf_eq_none _ _).mpr hFIR, (pyIndexOf_eq_none _ _).mpr hCTA,
      pyIndexOf_append_cons pre rest ("FROM".toList) hFROM]
    simp only [hlen, htn, if_false]
    rw [take_append_cons, drop_append_cons]

/-- C6 witness: a `FIR` region name keeps the marker. -/
theorem region_spec_witness :
    _region ((["TANGO", "FIR", "SEV"]).map String.toList) =
      ([("SEV".toList)], joinSp ([("TANGO".toList)] ++ [("FIR".toList)])) := by
  exact region_spec.1 [("TANGO".toList)] [("SEV".toList)] (by decide)

/-! ### Claim C7 : current/forecast split -/

/-- `List.findSome?` over a two-element target list, unfolded. -/
theorem findSome?_pair {α β : Type} (f : α → Option β) (a b : α) :
    List.findSome? f [a, b] =
      match f a with
      | some x => some x
      | none =>
        match f b with
        | some y => some y
        | none => none := by
  cases h : f a <;> cases h2 : f b <;> simp [List.findSome?, h, h2]

/-- C7 counterexample: `dC7` has an `OUTLOOK` marker at index 0 — "below 6",
so the claim requires the whole list to become a forecast with the current
observation absent — but `FCST` occurs at index 10 and `_first_index` prefers
`FCST` wherever it is, so the code splits at 10 and the current observation
is present. -/
theorem observations_marker_counterexample :
    dC7.get? 0 = some ("OUTLOOK".toList) ∧
    (Except.map (fun t => t.2.1.isSome) (_observations E0 dC7 IN_UNITS)) = .ok true := by
  exact ⟨rfl, by decide⟩

/-- C7 (amended): the forecast marker index is the index of the first `FCST`
token when one occurs anywhere (even if an `OUTLOOK` occurs earlier), and
otherwise the index of the first `OUTLOOK`; no marker gives a single current
observation, a marker index below 6 makes the whole list a forecast, and a
later marker splits the list at the marker into current prefix and forecast
suffix. -/
theorem observations_spec :
    (∀ (E : Env) (data : List PyStr) (u : UnitsState),
      "FCST".toList ∉ data → "OUTLOOK".toList ∉ data →
      _observations E data u =
        match _sigmet_observation E data u with
        | .error e => .error e
        | .ok (o, u') => .ok (u', some o, none)) ∧
    (∀ (E : Env) (data : List PyStr) (u : UnitsState) (i : ℕ),
      pyIndexOf data ("FCST".toList) = some i → i < 6 →
      _observations E data u =
        match _sigmet_observation E data u with
        | .error e => .error e
        | .ok (f, u') => .ok (u', none, some f)) ∧
    (∀ (E : Env) (data : List PyStr) (u : UnitsState) (i : ℕ),
      pyIndexOf data ("FCST".toList) = some i → 6 ≤ i →
      _observations E data u =
        match _sigmet_observation E (data.take i) u with
        | .error e => .error e
        | .ok (o, u') =>
          match _sigmet_observation E (data.drop i) u' with
          | .error e => .error e
          | .ok (f, u2) => .ok (u2, some o, some f)) ∧
    (∀ (E : Env) (data : List PyStr) (u : UnitsState) (i : ℕ),
      "FCST".toList ∉ data → pyIndexOf data ("OUTLOOK".toList) = some i → i < 6 →
      _observations E data u =
        match _sigmet_observation E data u with
        | .error e => .error e
        | .ok (f, u') => .ok (u', none, some f)) ∧
    (∀ (E : Env) (data : List PyStr) (u : UnitsState) (i : ℕ),
      "FCST".toList ∉ data → pyIndexOf data ("OUTLOOK".toList) = some i → 6 ≤ i →
      _observations E data u =
        match _sigmet_observation E (data.take i) u with
        | .error e => .error e
        | .ok (o, u') =>
          match _sigmet_observation E (data.drop i) u' with
          | .error e => .error e
          | .ok (f, u2) => .ok (u2, some o, some f)) := by
  refine ⟨?_, ?_, ?_, ?_, ?_⟩
  · intro E data u hF hO
    unfold _observations _first_index
    rw [findSome?_pair, (pyIndexOf_eq_none _ _).mpr hF, (pyIndexOf_eq_none _ _).mpr hO]
    rfl
  · intro E data u i hF hi
    unfold _observations _first_index
    rw [findSome?_pair, hF]
    have h1 : ¬((i : ℤ) = -1) := by omega
    have h2 : ((i : ℤ) < 6) := by omega
    rw [if_neg h1, if_pos h2]
  · intro E data u i hF hi
    unfold _observations _first_index
    rw [findSome?_pair, hF]
    have h1 : ¬((i : ℤ) = -1) := by omega
    have h2 : ¬((i : ℤ) < 6) := by omega
    rw [if_neg h1, if_neg h2]
    have h3 : ((i : ℤ)).toNat = i := by omega
    rw [h3]
  · intro E data u i hF hO hi
    unfold _observations _first_index
    rw [findSome?_pair, (pyIndexOf_eq_none _ _).mpr hF, hO]
    have h1 : ¬((i : ℤ) = -1) := by omega
    have h2 : ((i : ℤ) < 6) := by omega
    rw [if_neg h1, if_pos h2]
  · intro E data u i hF hO hi
    unfold _observations _first_index
    rw [findSome?_pair, (pyIndexOf_eq_none _ _).mpr hF, hO]
    have h1 : ¬((i : ℤ) = -1) := by omega
    have h2 : ¬((i : ℤ) < 6) := by omega
    rw [if_neg h1, if_neg h2]
    have h3 : ((i : ℤ)).toNat = i := by omega
    rw [h3]

/-- C7 witness: the split rule applied to `dC7`, whose first `FCST` is at
index 10. -/
theorem observations_spec_witness :
    pyIndexOf dC7 ("FCST".toList) = some 10 ∧
    _observations E0 dC7 IN_UNITS =
      match _sigmet_observation E0 (dC7.take 10) IN_UNITS with
      | .error e => .error e
      | .ok (o, u') =>
        match _sigmet_observation E0 (dC7.drop 10) u' with
        | .error e => .error e
        | .ok (f, u2) => .ok (u2, some o, some f) := by
  exact ⟨rfl, observations_spec.2.2.1 E0 dC7 IN_UNITS 10 rfl (by omega)⟩

/-! ### Claim C5 : spacetime decoding -/

/-- `pyIndexOf` only answers for present elements. -/
theorem pyIndexOf_some_mem {α : Type} [DecidableEq α] {l : List α} {x : α} {i : ℕ}
    (h : pyIndexOf l x = some i) : x ∈ l := by
  by_contra hx
  rw [(pyIndexOf_eq_none l x).mpr hx] at h
  exact Option.noConfusion h

/-- `_stationCheck` fails only with an IndexError. -/
theorem stationCheck_err (d : List PyStr) (e : PErr) (h : _stationCheck d = .error e) :
    e = .indexError := by
  unfold _stationCheck at h
  split at h
  · injection h with h'
    exact h'.symm
  · split at h
    · injection h with h'
      exact h'.symm
    · split at h <;> exact absurd h (by simp)

/-- `_splitTimes` fails only with the unpacking ValueError. -/
theorem splitTimes_err (t0 : PyStr) (e : PErr) (h : _splitTimes t0 = .error e) :
    e = .valueError := by
  unfold _splitTimes at h
  cases hsp : splitOnChar (if '-' ∈ t0 then '-' else '/') t0 with
  | nil =>
    rw [hsp] at h
    injection h with h'
    exact h'.symm
  | cons x l =>
    cases l with
    | nil =>
      rw [hsp] at h
      injection h with h'
      exact h'.symm
    | cons y l2 =>
      cases l2 with
      | nil => rw [hsp] at h; exact absurd h (by simp)
      | cons z l3 =>
        rw [hsp] at h
        injection h with h'
        exact h'.symm

/-- `_spacetimeRest` never fails with the MissingValidityMarker error. -/
theorem spacetimeRest_err (d : List PyStr) (e : PErr) (h : _spacetimeRest d = .error e) :
    e ≠ .missingValidity := by
  intro hc
  subst hc
  unfold _spacetimeRest at h
  split at h
  · simp at h
  · split at h
    · split at h
      · simp at h
      · split at h
        · rename_i er hsc
          have her := stationCheck_err _ _ hsc
          simp [her] at h
        · simp at h
    · split at h
      · rename_i er hst
        have her := splitTimes_err _ _ hst
        simp [her] at h
      · split at h
        · rename_i er hsc
          have her := stationCheck_err _ _ hsc
          simp [her] at h
        · simp at h

/-- `_spacetimeRest` on an `UNTIL <end>` shape: no start time, the token
after `UNTIL` is the end time, and the next token is consumed as the origin
station exactly when it ends in `-`. -/
theorem spacetimeRest_until (e f : PyStr) (post : List PyStr) (hf : f ≠ []) :
    _spacetimeRest (("UNTIL".toList) :: e :: f :: post) =
      if f.getLast? = some '-' then .ok (post, none, e, some f)
      else .ok (f :: post, none, e, none) := by
  cases hgl : f.getLast? with
  | none => exact absurd (List.getLast?_eq_none_iff.mp hgl) hf
  | some c =>
    by_cases hc : c = '-'
    · subst hc
      simp [_spacetimeRest, _stationCheck, hgl]
    · simp [_spacetimeRest, _stationCheck, hgl, hc]

/-- `_spacetimeRest` on a `<start>-<end>` (or `/`) shape: the token after
`VALID` splits into start and end, and the next token is consumed as the
origin station exactly when it ends in `-`. -/
theorem spacetimeRest_split (t f : PyStr) (post : List PyStr) (x y : PyStr)
    (ht : t ≠ "UNTIL".toList)
    (hsp : splitOnChar (if '-' ∈ t then '-' else '/') t = [x, y]) (hf : f ≠ []) :
    _spacetimeRest (t :: f :: post) =
      if f.getLast? = some '-' then .ok (post, some x, y, some f)
      else .ok (f :: post, some x, y, none) := by
  have ht' : ¬(t = ['U', 'N', 'T', 'I', 'L']) := by simpa using ht
  cases hgl : f.getLast? with
  | none => exact absurd (List.getLast?_eq_none_iff.mp hgl) hf
  | some c =>
    by_cases hc : c = '-'
    · subst hc
      simp [_spacetimeRest, _splitTimes, _stationCheck, ht', hsp, hgl]
    · simp [_spacetimeRest, _splitTimes, _stationCheck, ht', hsp, hgl, hc]

/-- Reduction of `_spacetime` past the area pop and the (skipped) `WA` check. -/
theorem spacetime_reduce (a t0 : PyStr) (rest : List PyStr) (h0 : rest.head? = some t0)
    (hWA : t0 ≠ "WA".toList) :
    _spacetime (a :: rest) =
      match pyIndexOf rest ("VALID".toList) with
      | none => .error .missingValidity
      | some vi =>
        match _spacetimeRest (rest.drop (vi + 1)) with
        | .error e => .error e
        | .ok (d, st, et, station) => .ok (d, a, joinSp (rest.take vi), st, et, station) := by
  cases rest with
  | nil => simp at h0
  | cons b r =>
    obtain rfl : b = t0 := by simpa using h0
    have hWA2 : ¬(b = ['W', 'A']) := by simpa using hWA
    simp only [_spacetime]
    simp [hWA2]

/-- C5 counterexample: an empty token list contains no `VALID` token yet the
decoder fails with an IndexError (from `data.pop(0)`), not with the
MissingValidityMarker error — refuting the "if and only if" — and a list that
does contain `VALID` (as its last token) also fails rather than decoding. -/
theorem spacetime_mvm_counterexample :
    _spacetime ([] : List PyStr) = .error .indexError ∧
    _spacetime ((["A", "VALID"]).map String.toList) = .error .indexError ∧
    ("VALID".toList) ∈ (["A", "VALID"]).map String.toList := by
  exact ⟨rfl, rfl, by decide⟩

/-- C5 (amended): once the scan is reached — the list is nonempty, its second
token exists and is not the `WA` airmet-repeat marker — the decoder fails
with the MissingValidityMarker error exactly when the tokens after the area
token contain no `VALID`; too-short lists fail with an index error instead.
When `VALID` is present and followed by `UNTIL`, an end token and a further
nonempty token, the start time is absent and the token after `UNTIL` is the
end time; otherwise when the token after `VALID` splits on `-` (or `/` when
it has no `-`) into exactly two parts and a further nonempty token follows,
those parts are the start and end times.  In both shapes the trailing token
is consumed as the origin station exactly when it ends in `-`. -/
theorem spacetime_spec :
    (∀ (a t0 : PyStr) (rest : List PyStr), rest.head? = some t0 → t0 ≠ "WA".toList →
      (_spacetime (a :: rest) = .error .missingValidity ↔ "VALID".toList ∉ rest)) ∧
    (∀ (a e f : PyStr) (pre post : List PyStr), "VALID".toList ∉ pre →
      (pre ++ "VALID".toList :: "UNTIL".toList :: e :: f :: post).head? ≠
        some ("WA".toList) →
      f ≠ [] →
      _spacetime (a :: pre ++ "VALID".toList :: "UNTIL".toList :: e :: f :: post) =
        if f.getLast? = some '-' then .ok (post, a, joinSp pre, none, e, some f)
        else .ok (f :: post, a, joinSp pre, none, e, none)) ∧
    (∀ (a t x y f : PyStr) (pre post : List PyStr), "VALID".toList ∉ pre →
      (pre ++ "VALID".toList :: t :: f :: post).head? ≠ some ("WA".toList) →
      t ≠ "UNTIL".toList →
      splitOnChar (if '-' ∈ t then '-' else '/') t = [x, y] →
      f ≠ [] →
      _spacetime (a :: pre ++ "VALID".toList :: t :: f :: post) =
        if f.getLast? = some '-' then .ok (post, a, joinSp pre, some x, y, some f)
        else .ok (f :: post, a, joinSp pre, some x, y, none)) := by
  have hhead : ∀ (pre : List PyStr) (v : PyStr) (l : List PyStr),
      ∃ t0, (pre ++ v :: l).head? = some t0 := by
    intro pre v l
    cases pre with
    | nil => exact ⟨v, rfl⟩
    | cons p pre' => exact ⟨p, rfl⟩
  refine ⟨?_, ?_, ?_⟩
  · intro a t0 rest hh hWA
    rw [spacetime_reduce a t0 rest hh hWA]
    cases hidx : pyIndexOf rest ("VALID".toList) with
    | none =>
      exact iff_of_true rfl ((pyIndexOf_eq_none _ _).mp hidx)
    | some vi =>
      have hmem := pyIndexOf_some_mem hidx
      have hshape : ∀ z, _spacetimeRest (rest.drop (vi + 1)) = z →
          ¬(match z with
            | Except.error e => (Except.error e :
                Except PErr (List PyStr × PyStr × PyStr × Option PyStr × PyStr × Option PyStr))
            | Except.ok (d, st, et, station) =>
              Except.ok (d, a, joinSp (List.take vi rest), st, et, station)) =
            Except.error PErr.missingValidity := by
        intro z hz
        cases z with
        | error er =>
          have hne := spacetimeRest_err _ _ hz
          simp [hne]
        | ok v =>
          obtain ⟨d, st, et, station⟩ := v
          simp
      exact iff_of_false (hshape _ rfl) (fun hc => hc hmem)
  · intro a e f pre post hv hWA hf
    obtain ⟨t0, h0⟩ := hhead pre ("VALID".toList) _
    have hWA0 : t0 ≠ "WA".toList := by
      intro hc
      rw [hc] at h0
      exact hWA h0
    rw [show (a :: pre ++ "VALID".toList :: "UNTIL".toList :: e :: f :: post) =
      (a :: (pre ++ "VALID".toList :: "UNTIL".toList :: e :: f :: post)) from rfl]
    rw [spacetime_reduce a t0 _ h0 hWA0]
    simp only [pyIndexOf_append_cons pre _ ("VALID".toList) hv]
    simp only [drop_append_cons, List.take_left]
    rw [spacetimeRest_until e f post hf]
    by_cases hg : f.getLast? = some '-'
    · rw [if_pos hg, if_pos hg]
    · rw [if_neg hg, if_neg hg]
  · intro a t x y f pre post hv hWA ht hsp hf
    obtain ⟨t0, h0⟩ := hhead pre ("VALID".toList) _
    have hWA0 : t0 ≠ "WA".toList := by
      intro hc
      rw [hc] at h0
      exact hWA h0
    rw [show (a :: pre ++ "VALID".toList :: t :: f :: post) =
      (a :: (pre ++ "VALID".toList :: t :: f :: post)) from rfl]
    rw [spacetime_reduce a t0 _ h0 hWA0]
    simp only [pyIndexOf_append_cons pre _ ("VALID".toList) hv]
    simp only [drop_append_cons, List.take_left]
    rw [spacetimeRest_split t f post x y ht hsp hf]
    by_cases hg : f.getLast? = some '-'
    · rw [if_pos hg, if_pos hg]
    · rw [if_neg hg, if_neg hg]

/-- C5 witness: the three conjuncts evaluated on concrete token lists. -/
theorem spacetime_spec_witness :
    (_spacetime ((["KZAK", "SIGMET", "0200/0600"]).map String.toList) =
      .error .missingValidity) ∧
    (_spacetime ((["KZAK", "VALID", "UNTIL", "0600Z", "TANGO"]).map String.toList) =
      .ok ([("TANGO".toList)], "KZAK".toList, [], none, "0600Z".toList, none)) ∧
    (_spacetime ((["KZAK", "VALID", "0200/0600", "TANGO", "FIR"]).map String.toList) =
      .ok (["TANGO".toList, "FIR".toList], "KZAK".toList, [], some ("0200".toList),
        "0600".toList, none)) := by
  refine ⟨?_, ?_, ?_⟩
  · exact (spacetime_spec.1 ("KZAK".toList) ("SIGMET".toList)
      ((["SIGMET", "0200/0600"]).map String.toList) rfl (by decide)).mpr (by decide)
  · have h := spacetime_spec.2.1 ("KZAK".toList) ("0600Z".toList) ("TANGO".toList)
      [] [] (by decide) (by decide) (by decide)
    rw [if_neg (by decide)] at h
    exact h
  · have h := spacetime_spec.2.2 ("KZAK".toList) ("0200/0600".toList) ("0200".toList)
      ("0600".toList) ("TANGO".toList) [] [("FIR".toList)] (by decide) (by decide)
      (by decide) (by decide) (by decide)
    rw [if_neg (by decide)] at h
    exact h

/-! ### Claim C3 : ambiguous-ident disambiguation -/

/-- The stable fold underlying `distances.sort(); distances[0]` picks a
member of the list achieving the minimal key. -/
theorem foldl_min_spec (key : Coord → ℚ) (c0 : Coord) (cs : List Coord) :
    (cs.foldl (fun best x => if key x < key best then x else best) c0) ∈ c0 :: cs ∧
    ∀ c ∈ c0 :: cs,
      key (cs.foldl (fun best x => if key x < key best then x else best) c0) ≤ key c := by
  induction cs generalizing c0 with
  | nil => simp
  | cons x cs ih =>
    set m := if key x < key c0 then x else c0 with hm
    obtain ⟨hmem, hmin⟩ := ih m
    have hstep : ((x :: cs).foldl (fun best y => if key y < key best then y else best) c0) =
        cs.foldl (fun best y => if key y < key best then y else best) m := by
      simp [List.foldl, hm]
    have hme : key m ≤ key c0 := by
      rw [hm]
      by_cases h : key x < key c0
      · rw [if_pos h]
        exact le_of_lt h
      · rw [if_neg h]
    have hmx : key m ≤ key x := by
      rw [hm]
      by_cases h : key x < key c0
      · rw [if_pos h]
      · rw [if_neg h]
        exact le_of_not_lt h
    have hresm :
        key (cs.foldl (fun best y => if key y < key best then y else best) m) ≤ key m :=
      hmin m (List.mem_cons_self _ _)
    rw [hstep]
    constructor
    · rcases List.mem_cons.mp hmem with h | h
      · rw [h, hm]
        by_cases hx : key x < key c0
        · rw [if_pos hx]
          exact List.mem_cons_of_mem _ (List.mem_cons_self _ _)
        · rw [if_neg hx]
          exact List.mem_cons_self _ _
      · exact List.mem_cons_of_mem _ (List.mem_cons_of_mem _ h)
    · intro c hc
      rcases List.mem_cons.mp hc with rfl | hc2
      · exact le_trans hresm hme
      · rcases List.mem_cons.mp hc2 with rfl | hc3
        · exact le_trans hresm hmx
        · exact hmin c (List.mem_cons_of_mem _ hc3)

/-- `closestSingle` returns a candidate achieving minimal distance to the
reference coordinate. -/
theorem closestSingle_spec (d : ℚ × ℚ → ℚ × ℚ → ℚ) (nc : Coord) (cands : List Coord)
    (r : Coord) (h : closestSingle d nc cands = .ok r) :
    r ∈ cands ∧ ∀ c ∈ cands, d nc.pair r.pair ≤ d nc.pair c.pair := by
  cases cands with
  | nil => exact absurd h (by simp [closestSingle, argminFirst, okOr])
  | cons c0 cs =>
    have hr : r = cs.foldl
        (fun best x => if _distance d nc x < _distance d nc best then x else best) c0 := by
      have h2 : (Except.ok (cs.foldl
          (fun best x => if _distance d nc x < _distance d nc best then x else best) c0) :
            Except PErr Coord) = Except.ok r := h
      injection h2 with h3
      exact h3.symm
    obtain ⟨hmem, hmin⟩ := foldl_min_spec (fun x => _distance d nc x) c0 cs
    rw [hr]
    exact ⟨hmem, fun c hc => hmin c hc⟩

/-- C3: when an ident has several candidate coordinates, `_best_coord` with a
forward neighbor returns the candidate nearest to it (regardless of any
backward context); with only a single backward neighbor it returns the
candidate nearest to that; with no context at all it fails; and
`to_coordinates` routes every multi-candidate ident through `_best_coord`
with the forward chain resolved first. -/
theorem best_coord_spec :
    (∀ (d : ℚ × ℚ → ℚ × ℚ → ℚ) (prev : Option QCoord) (cands : List Coord)
        (nc r : Coord), _best_coord d prev (.many cands) (some nc) = .ok r →
      r ∈ cands ∧ ∀ c ∈ cands, d nc.pair r.pair ≤ d nc.pair c.pair) ∧
    (∀ (d : ℚ × ℚ → ℚ × ℚ → ℚ) (prev : Option QCoord) (nc c0 : Coord)
        (cs : List Coord),
      ∃ r, _best_coord d prev (.many (c0 :: cs)) (some nc) = .ok r) ∧
    (∀ (d : ℚ × ℚ → ℚ × ℚ → ℚ) (pc : Coord) (cands : List Coord) (r : Coord),
      _best_coord d (some (.one pc)) (.many cands) none = .ok r →
      r ∈ cands ∧ ∀ c ∈ cands, d pc.pair r.pair ≤ d pc.pair c.pair) ∧
    (∀ (d : ℚ × ℚ → ℚ × ℚ → ℚ) (pc c0 : Coord) (cs : List Coord),
      ∃ r, _best_coord d (some (.one pc)) (.many (c0 :: cs)) none = .ok r) ∧
    (∀ (d : ℚ × ℚ → ℚ × ℚ → ℚ) (cands : List Coord), 1 < cands.length →
      _best_coord d none (.many cands) none = .error .ambiguousCoord) ∧
    (∀ (L : IdentLookup) (d : ℚ × ℚ → ℚ × ℚ → ℚ) (s : PyStr) (ps : List (ℚ × ℚ))
        (rest : List (Coord ⊕ PyStr)) (last : Option QCoord) (ncs : List Coord),
      L.icao s = none → L.navaids s = some ps →
      (ps.map (fun p => (⟨p.1, p.2, none⟩ : Coord))).length ≠ 1 →
      to_coordinates L d rest
        (some (.many (ps.map (fun p => (⟨p.1, p.2, none⟩ : Coord))))) = .ok ncs →
      to_coordinates L d (.inr s :: rest) last =
        match _best_coord d last
            (.many (ps.map (fun p => (⟨p.1, p.2, none⟩ : Coord)))) ncs.head? with
        | .error e => .error e
        | .ok c => .ok (c :: ncs)) := by
  have hfwd : ∀ (d : ℚ × ℚ → ℚ × ℚ → ℚ) (prev : Option QCoord) (cands : List Coord)
      (nc : Coord), _best_coord d prev (.many cands) (some nc) =
        closestSingle d nc cands := by
    intro d prev cands nc
    cases prev with
    | none => rfl
    | some q => cases q <;> rfl
  refine ⟨?_, ?_, ?_, ?_, ?_, ?_⟩
  · intro d prev cands nc r h
    rw [hfwd] at h
    exact closestSingle_spec d nc cands r h
  · intro d prev nc c0 cs
    rw [hfwd]
    exact ⟨_, rfl⟩
  · intro d pc cands r h
    exact closestSingle_spec d pc cands r h
  · intro d pc c0 cs
    exact ⟨_, rfl⟩
  · intro d cands hlen
    rfl
  · intro L d s ps rest last ncs hicao hnav hne htail
    simp only [to_coordinates, hicao, hnav, if_neg hne, htail]
    cases hb : _best_coord d last
        (.many (ps.map (fun p => (⟨p.1, p.2, none⟩ : Coord)))) ncs.head? with
    | error e => simp [Bind.bind, Except.bind, Functor.map, Except.map, hb]
    | ok c =>
      simp [Bind.bind, Except.bind, Functor.map, Except.map, hb]
      rfl

/-- C3 witness: the forward-neighbor rule on the spec's two-candidate
scenario: `cFwd` is nearer to `cA`, so `cA` is chosen, and the chained
`to_coordinates` resolves the ambiguous ident to `cA` as well. -/
theorem best_coord_spec_witness :
    _best_coord dTaxi none (.many [cA, cB]) (some cFwd) = .ok cA ∧
    dTaxi cFwd.pair cA.pair ≤ dTaxi cFwd.pair cB.pair := by
  have hcomp : _best_coord dTaxi none (.many [cA, cB]) (some cFwd) = .ok cA := by
    show closestSingle dTaxi cFwd [cA, cB] = .ok cA
    simp only [closestSingle, argminFirst, okOr, _distance, dTaxi, cA, cB, cFwd,
      Coord.pair, List.foldl]
    norm_num
  refine ⟨hcomp, ?_⟩
  exact (best_coord_spec.1 dTaxi none [cA, cB] cFwd cA hcomp).2 cB (by simp)

/-! ### Claim C8 : sanitizer idempotence -/

/-- Leading whitespace is dropped by `splitWs`. -/
theorem splitWs_ws_cons (c : Char) (s : PyStr) (hc : pyIsWs c = true) :
    splitWs (c :: s) = splitWs s := by
  cases s with
  | nil => simp [splitWs, hc]
  | cons d s' => simp [splitWs, hc]

/-- With a non-whitespace head, the first word of `splitWs` starts with it. -/
theorem splitWs_head (a : Char) (s : PyStr) (ha : pyIsWs a = false) :
    ∃ w ws, splitWs (a :: s) = (a :: w) :: ws := by
  cases s with
  | nil => exact ⟨[], [], by simp [splitWs, ha]⟩
  | cons d s' =>
    by_cases hd : pyIsWs d
    · exact ⟨[], splitWs (d :: s'), by simp [splitWs, ha, hd]⟩
    · exact ⟨(splitWs (d :: s')).headI, (splitWs (d :: s')).tail, by simp [splitWs, ha, hd]⟩

/-- Words produced by `splitWs` are nonempty and whitespace-free. -/
theorem splitWs_words (s : PyStr) :
    ∀ w ∈ splitWs s, w ≠ [] ∧ ∀ c ∈ w, pyIsWs c = false := by
  induction s with
  | nil => simp [splitWs]
  | cons c cs ih =>
    intro w hw
    by_cases hc : pyIsWs c
    · rw [splitWs_ws_cons c cs hc] at hw
      exact ih w hw
    · cases cs with
      | nil =>
        rw [show splitWs [c] = [[c]] by simp [splitWs, hc]] at hw
        simp at hw
        subst hw
        refine ⟨by simp, ?_⟩
        intro c' hc'
        simp at hc'
        subst hc'
        simpa using hc
      | cons d cs' =>
        by_cases hd : pyIsWs d
        · rw [show splitWs (c :: d :: cs') = [c] :: splitWs (d :: cs') by
            simp [splitWs, hc, hd]] at hw
          rcases List.mem_cons.mp hw with rfl | hw2
          · refine ⟨by simp, ?_⟩
            intro c' hc'
            simp at hc'
            subst hc'
            simpa using hc
          · exact ih w hw2
        · have hdf : pyIsWs d = false := by simpa using hd
          obtain ⟨w0, ws0, hsp⟩ := splitWs_head d cs' hdf
          rw [show splitWs (c :: d :: cs') = (c :: d :: w0) :: ws0 by
            simp [splitWs, hc, hd, hsp]] at hw
          rcases List.mem_cons.mp hw with rfl | hw2
          · have h0 := ih (d :: w0) (hsp ▸ List.mem_cons_self _ _)
            refine ⟨by simp, ?_⟩
            intro c' hc'
            rcases List.mem_cons.mp hc' with rfl | hc2
            · simpa using hc
            · exact h0.2 c' hc2
          · exact ih w (hsp ▸ List.mem_cons_of_mem _ hw2)

/-- A word followed by a space splits off as the first word. -/
theorem splitWs_word_sep (w : PyStr) (rest : PyStr) (hw : w ≠ [])
    (hnw : ∀ c ∈ w, pyIsWs c = false) :
    splitWs (w ++ ' ' :: rest) = w :: splitWs rest := by
  induction w with
  | nil => exact absurd rfl hw
  | cons a t ih =>
    have ha : pyIsWs a = false := hnw a (List.mem_cons_self _ _)
    cases t with
    | nil =>
      show splitWs (a :: ' ' :: rest) = [a] :: splitWs rest
      rw [show splitWs (a :: ' ' :: rest) = [a] :: splitWs (' ' :: rest) by
        simp [splitWs, ha, show pyIsWs ' ' = true from rfl]]
      rw [splitWs_ws_cons ' ' rest rfl]
    | cons b t' =>
      have hb : pyIsWs b = false :=
        hnw b (List.mem_cons_of_mem _ (List.mem_cons_self _ _))
      have ih2 := ih (by simp) (fun c hc => hnw c (List.mem_cons_of_mem _ hc))
      show splitWs (a :: b :: (t' ++ ' ' :: rest)) = (a :: b :: t') :: splitWs rest
      rw [show splitWs (a :: b :: (t' ++ ' ' :: rest)) =
          (a :: (splitWs (b :: (t' ++ ' ' :: rest))).headI) ::
            (splitWs (b :: (t' ++ ' ' :: rest))).tail by
        simp [splitWs, ha, hb]]
      have ih3 : splitWs (b :: (t' ++ ' ' :: rest)) = (b :: t') :: splitWs rest := ih2
      rw [ih3]
      simp

/-- A single whitespace-free word splits to itself. -/
theorem splitWs_single (w : PyStr) (hw : w ≠ []) (hnw : ∀ c ∈ w, pyIsWs c = false) :
    splitWs w = [w] := by
  induction w with
  | nil => exact absurd rfl hw
  | cons a t ih =>
    have ha : pyIsWs a = false := hnw a (List.mem_cons_self _ _)
    cases t with
    | nil => simp [splitWs, ha]
    | cons b t' =>
      have hb : pyIsWs b = false :=
        hnw b (List.mem_cons_of_mem _ (List.mem_cons_self _ _))
      have ih2 := ih (by simp) (fun c hc => hnw c (List.mem_cons_of_mem _ hc))
      simp [splitWs, ih2, ha, hb]

/-- With nonempty whitespace-free words, `splitWs` inverts `joinSp`. -/
theorem splitWs_joinSp (ws : List PyStr)
    (h : ∀ w ∈ ws, w ≠ [] ∧ ∀ c ∈ w, pyIsWs c = false) :
    splitWs (joinSp ws) = ws := by
  induction ws with
  | nil => simp [joinSp, splitWs]
  | cons w ws' ih =>
    cases ws' with
    | nil =>
      obtain ⟨hw, hnw⟩ := h w (List.mem_cons_self _ _)
      show splitWs w = [w]
      exact splitWs_single w hw hnw
    | cons w2 ws2 =>
      obtain ⟨hw, hnw⟩ := h w (List.mem_cons_self _ _)
      show splitWs (w ++ ' ' :: joinSp (w2 :: ws2)) = w :: (w2 :: ws2)
      rw [splitWs_word_sep w _ hw hnw]
      rw [ih (fun u hu => h u (List.mem_cons_of_mem _ hu))]

/-- The head of `dropWhile p` fails `p`. -/
theorem head?_dropWhile_false {α : Type} (p : α → Bool) (l : List α) (a : α)
    (h : (l.dropWhile p).head? = some a) : p a = false := by
  induction l with
  | nil => simp at h
  | cons c l ih =>
    by_cases hc : p c
    · rw [List.dropWhile_cons_of_pos hc] at h
      exact ih h
    · rw [List.dropWhile_cons_of_neg hc] at h
      simp at h
      subst h
      simpa using hc

/-- When nonempty, `dropWhile` keeps the last element. -/
theorem getLast?_dropWhile {α : Type} (p : α → Bool) (l : List α)
    (h : l.dropWhile p ≠ []) : (l.dropWhile p).getLast? = l.getLast? := by
  induction l with
  | nil => simp at h
  | cons c l ih =>
    by_cases hc : p c
    · rw [List.dropWhile_cons_of_pos hc] at h ⊢
      cases l with
      | nil => simp at h
      | cons d l' => rw [ih h, List.getLast?_cons_cons]
    · rw [List.dropWhile_cons_of_neg hc]

/-- Membership transfers from `dropWhile p l` to `l`. -/
theorem mem_dropWhile {α : Type} {p : α → Bool} {l : List α} {c : α}
    (h : c ∈ l.dropWhile p) : c ∈ l :=
  (List.dropWhile_sublist _).mem h

/-- Characters of a stripped string come from the original. -/
theorem stripMem {set : List Char} {s : PyStr} {c : Char}
    (h : c ∈ pyStripChars set s) : c ∈ s := by
  unfold pyStripChars at h
  rw [List.mem_reverse] at h
  have h2 := mem_dropWhile h
  rw [List.mem_reverse] at h2
  exact mem_dropWhile h2

/-- The head of a stripped string is not in the strip set. -/
theorem stripHead {set : List Char} {s : PyStr} {a : Char}
    (h : (pyStripChars set s).head? = some a) : a ∉ set := by
  unfold pyStripChars at h
  rw [List.head?_reverse] at h
  have hne : (s.dropWhile (· ∈ set)).reverse.dropWhile (· ∈ set) ≠ [] := by
    intro hnil
    rw [hnil] at h
    simp at h
  rw [getLast?_dropWhile _ _ hne, List.getLast?_reverse] at h
  have := head?_dropWhile_false _ _ _ h
  simpa using this

/-- The last character of a stripped string is not in the strip set. -/
theorem stripLast {set : List Char} {s : PyStr} {b : Char}
    (h : (pyStripChars set s).getLast? = some b) : b ∉ set := by
  unfold pyStripChars at h
  rw [List.getLast?_reverse] at h
  have := head?_dropWhile_false _ _ _ h
  simpa using this

/-- When the head fails `p`, `dropWhile p` is the identity. -/
theorem dropWhile_eq_self_of_head {α : Type} (p : α → Bool) (l : List α)
    (h : ∀ a, l.head? = some a → p a = false) : l.dropWhile p = l := by
  cases l with
  | nil => rfl
  | cons c l' =>
    have hc := h c rfl
    rw [List.dropWhile_cons_of_neg (by simp [hc])]

/-- Stripping is a no-op when neither end character is in the set. -/
theorem stripNoop {set : List Char} {s : PyStr}
    (h1 : ∀ a, s.head? = some a → a ∉ set)
    (h2 : ∀ b, s.getLast? = some b → b ∉ set) :
    pyStripChars set s = s := by
  unfold pyStripChars
  rw [dropWhile_eq_self_of_head _ s
    (fun a ha => by simpa using h1 a ha)]
  rw [dropWhile_eq_self_of_head _ s.reverse
    (fun b hb => by
      rw [List.head?_reverse] at hb
      simpa using h2 b hb)]
  exact List.reverse_reverse s

/-- The joined string starts with the first word's first character. -/
theorem joinSp_head (a : Char) (w : PyStr) (ws : List PyStr) :
    (joinSp ((a :: w) :: ws)).head? = some a := by
  cases ws with
  | nil => rfl
  | cons w2 ws2 => rfl

/-- Splitting then joining preserves a non-whitespace last character. -/
theorem joinSp_splitWs_getLast (s : PyStr) (b : Char) (hb : s.getLast? = some b)
    (hnb : pyIsWs b = false) : (joinSp (splitWs s)).getLast? = some b := by
  induction s with
  | nil => simp at hb
  | cons c s ih =>
    cases s with
    | nil =>
      have hcb : c = b := by simpa using hb
      have hnc : pyIsWs c = false := by rw [hcb]; exact hnb
      rw [show splitWs [c] = [[c]] by simp [splitWs, hnc]]
      rw [show joinSp [[c]] = [c] from rfl]
      simp [hcb]
    | cons d s' =>
      rw [List.getLast?_cons_cons] at hb
      have IH := ih hb
      by_cases hc : pyIsWs c
      · rw [splitWs_ws_cons c _ hc]
        exact IH
      · by_cases hd : pyIsWs d
        · rw [show splitWs (c :: d :: s') = [c] :: splitWs (d :: s') by
            simp [splitWs, hc, hd]]
          cases hr : splitWs (d :: s') with
          | nil => rw [hr] at IH; simp [joinSp] at IH
          | cons w0 ws0 =>
            rw [hr] at IH
            show (joinSp ([c] :: w0 :: ws0)).getLast? = some b
            rw [show joinSp ([c] :: w0 :: ws0) = [c] ++ ' ' :: joinSp (w0 :: ws0) from rfl]
            rw [List.getLast?_append_cons]
            cases ht : joinSp (w0 :: ws0) with
            | nil => rw [ht] at IH; simp at IH
            | cons t0 t1 =>
              rw [ht] at IH
              rw [List.getLast?_cons_cons]
              exact IH
        · have hdf : pyIsWs d = false := by simpa using hd
          obtain ⟨w0, ws0, hsp⟩ := splitWs_head d s' hdf
          rw [show splitWs (c :: d :: s') = (c :: d :: w0) :: ws0 by
            simp [splitWs, hc, hd, hsp]]
          rw [hsp] at IH
          cases ws0 with
          | nil =>
            show (joinSp [c :: d :: w0]).getLast? = some b
            rw [show joinSp [c :: d :: w0] = c :: d :: w0 from rfl]
            rw [show joinSp [d :: w0] = d :: w0 from rfl] at IH
            rw [List.getLast?_cons_cons]
            exact IH
          | cons w2 ws2 =>
            show (joinSp ((c :: d :: w0) :: w2 :: ws2)).getLast? = some b
            rw [show joinSp ((c :: d :: w0) :: w2 :: ws2) =
              (c :: d :: w0) ++ ' ' :: joinSp (w2 :: ws2) from rfl]
            rw [show joinSp ((d :: w0) :: w2 :: ws2) =
              (d :: w0) ++ ' ' :: joinSp (w2 :: ws2) from rfl] at IH
            rw [List.getLast?_append_cons] at IH ⊢
            exact IH

/-- The last element of a list is a member of it. -/
theorem mem_of_getLast? {α : Type} {l : List α} {b : α} (h : l.getLast? = some b) :
    b ∈ l := by
  induction l with
  | nil => simp at h
  | cons c l ih =>
    cases l with
    | nil =>
      have hcb : c = b := by simpa using h
      rw [← hcb]
      exact List.mem_cons_self _ _
    | cons d l' =>
      rw [List.getLast?_cons_cons] at h
      exact List.mem_cons_of_mem _ (ih h)

/-- Claim C8 (amended).  `sanitize` is not idempotent on arbitrary inputs, but it
is idempotent on every input whose whitespace characters are all plain spaces
(in particular on any already-sanitized string): non-space whitespace can shield
a leading or trailing `=` from the strip step on the first pass only. -/
theorem sanitize_idem (x : PyStr) (hx : ∀ c ∈ x, pyIsWs c = true → c = ' ') :
    sanitize (sanitize x) = sanitize x := by
  show sanitize (joinSp (splitWs (pyStripChars [' ', '='] x))) = _
  cases hs : pyStripChars [' ', '='] x with
  | nil =>
    show ([] : PyStr) = joinSp (splitWs (pyStripChars [' ', '='] x))
    rw [hs]
    rfl
  | cons a s' =>
    have haset : a ∉ ([' ', '='] : List Char) := stripHead (by rw [hs]; rfl)
    have hax : a ∈ x := stripMem (by rw [hs]; exact List.mem_cons_self _ _)
    have hans : pyIsWs a = false := by
      by_contra hcon
      have : a = ' ' := hx a hax (by simpa using hcon)
      exact haset (this ▸ List.mem_cons_self _ _)
    obtain ⟨b, hb⟩ : ∃ b, (pyStripChars [' ', '='] x).getLast? = some b := by
      rw [hs]
      cases hgl : (a :: s').getLast? with
      | none => exact absurd (List.getLast?_eq_none_iff.mp hgl) (by simp)
      | some b => exact ⟨b, rfl⟩
    have hbset : b ∉ ([' ', '='] : List Char) := stripLast hb
    have hbx : b ∈ x := stripMem (mem_of_getLast? hb)
    have hbns : pyIsWs b = false := by
      by_contra hcon
      have : b = ' ' := hx b hbx (by simpa using hcon)
      exact hbset (this ▸ List.mem_cons_self _ _)
    obtain ⟨w, ws, hw⟩ := splitWs_head a s' hans
    have hhead : (joinSp (splitWs (a :: s'))).head? = some a := by
      rw [hw]; exact joinSp_head a w ws
    have hlast : (joinSp (splitWs (a :: s'))).getLast? = some b := by
      have := joinSp_splitWs_getLast (pyStripChars [' ', '='] x) b hb hbns
      rwa [hs] at this
    show joinSp (splitWs (pyStripChars [' ', '=']
      (joinSp (splitWs (a :: s'))))) = joinSp (splitWs (pyStripChars [' ', '='] x))
    rw [hs]
    rw [stripNoop
      (fun a' ha' => by rw [hhead] at ha'; injection ha' with h; exact h ▸ haset)
      (fun b' hb' => by rw [hlast] at hb'; injection hb' with h; exact h ▸ hbset)]
    rw [splitWs_joinSp _ (splitWs_words (a :: s'))]

/-- Claim C8, counterexample to the literal statement: on the input `"\t=A"` the
tab shields the `=` from stripping, the whitespace split then deletes the tab,
and the second `sanitize` pass strips the now-exposed `=`, so
`sanitize (sanitize x) ≠ sanitize x`. -/
theorem sanitize_idempotent_counterexample :
    sanitize (sanitize ['\t', '=', 'A']) ≠ sanitize ['\t', '=', 'A'] := by decide

/-- Witness: the amended idempotence theorem applied to a concrete space-only input. -/
theorem sanitize_idem_witness :
    (∀ c ∈ (" A  B= ".toList), pyIsWs c = true → c = ' ') ∧
    sanitize (sanitize (" A  B= ".toList)) = sanitize (" A  B= ".toList) :=
  ⟨by decide, sanitize_idem _ (by decide)⟩

/-! ### Claim C9 : error propagation in `parse` -/

set_option maxHeartbeats 1000000 in
/-- Claim C9.  `parse` propagates the first failing stage's error and never
returns a partial record: a header, spacetime, `AIRMET` trim or observation
failure aborts the whole parse with that error, and a successful parse implies
every stage succeeded, with the returned record assembled exactly from the
stage outputs. -/
theorem parse_spec :
    (∀ E report issued e,
        _header (_parse_prep (sanitize report)) = .error e →
        parse E report issued = .error e)
    ∧ (∀ E report issued e d1 b i t c,
        _header (_parse_prep (sanitize report)) = .ok (d1, b, i, t, c) →
        _spacetime d1 = .error e →
        parse E report issued = .error e)
    ∧ (∀ E report issued e d1 b i t c d2 area rt st et stn,
        _header (_parse_prep (sanitize report)) = .ok (d1, b, i, t, c) →
        _spacetime d1 = .ok (d2, area, rt, st, et, stn) →
        _trimAirmet d2 = .error e →
        parse E report issued = .error e)
    ∧ (∀ E report issued e d1 b i t c d2 area rt st et stn td,
        _header (_parse_prep (sanitize report)) = .ok (d1, b, i, t, c) →
        _spacetime d1 = .ok (d2, area, rt, st, et, stn) →
        _trimAirmet d2 = .ok td →
        _observations E (_region td).1 IN_UNITS = .error e →
        parse E report issued = .error e)
    ∧ (∀ E report issued rec units2,
        parse E report issued = .ok (rec, units2) →
        ∃ d1 b i t c d2 area rt st et stn td u2 o f,
          _header (_parse_prep (sanitize report)) = .ok (d1, b, i, t, c) ∧
          _spacetime d1 = .ok (d2, area, rt, st, et, stn) ∧
          _trimAirmet d2 = .ok td ∧
          _observations E (_region td).1 IN_UNITS = .ok (u2, o, f) ∧
          rec = ⟨report, sanitize report, stn, make_timestamp (some t) false issued,
                 none, b, i, c, area, rt, make_timestamp st false issued,
                 make_timestamp (some et) false issued,
                 pySliceTo (sanitize report)
                   (pyFindSub (sanitize report) (joinSp (d2.take 2))),
                 (_region td).2, o, f⟩ ∧
          units2 = u2) := by
  refine ⟨?_, ?_, ?_, ?_, ?_⟩
  · intro E report issued e h
    simp only [parse, h]
  · intro E report issued e d1 b i t c hh hs
    simp only [parse, hh, hs]
  · intro E report issued e d1 b i t c d2 area rt st et stn hh hs htr
    simp only [parse, hh, hs, htr]
  · intro E report issued e d1 b i t c d2 area rt st et stn td hh hs htr hob
    simp only [parse, hh, hs, htr, hob]
  · intro E report issued rec units2 h
    simp only [parse] at h
    split at h
    · exact absurd h (by simp)
    · rename_i d1 b i t c hh
      split at h
      · exact absurd h (by simp)
      · rename_i d2 area rt st et stn hs
        split at h
        · exact absurd h (by simp)
        · rename_i td htr
          split at h
          · exact absurd h (by simp)
          · rename_i u2 o f hob
            refine ⟨d1, b, i, t, c, d2, area, rt, st, et, stn, td, u2, o, f,
              hh, hs, htr, hob, ?_, ?_⟩
            · injection h with h1
              exact (congrArg Prod.fst h1).symm
            · injection h with h1
              exact (congrArg Prod.snd h1).symm

set_option maxHeartbeats 1000000 in
/-- Witness: the header-failure propagation arm of the `parse` theorem at a
concrete one-token report whose bulletin lookup fails. -/
theorem parse_spec_witness :
    parse E0 ("X".toList) none = Except.error PErr.keyError :=
  parse_spec.1 E0 ("X".toList) none PErr.keyError (by rfl)
